/-
Verification of the stac-caps decision core.

Shallow embedding, over ℚ, of the safety-relevant components of the
repository: the SafetyVeto decision layer (blocks/5_safety_envelope),
the DegradedModeDetector (blocks/1_calibration), the persistence
tracking engine and its TrackMemory cache (engine_2_persistence), the
detection-to-track association (tracking/association.py), and the
behavior engine (engine_3_behavior: trajectory prediction, intent
inference, TTC calculation, risk scoring).

Python floats are modelled as exact rationals.  Float infinity, where a
value can be infinite (TTC values, missing sort keys), is modelled as
`Option ℚ` with `none` standing for `float('inf')`.  A Python function
that can raise an exception is modelled as returning `Option` of its
result, `none` standing for the uncaught exception.  Where the source
compares a Euclidean norm against a nonnegative bound, the embedding
compares the squared norm against the squared bound, which is
equivalent (both sides of the source comparison are nonnegative and
squaring is strictly monotone there) and keeps the development inside
ℚ; each such place is marked in its doc comment.
-/
import Mathlib

namespace StacCaps

/-! ## Shared numeric basics -/

/-- 3-component vector of rationals, standing for the numpy 3-vectors
(positions, velocities) used throughout the source. -/
structure V3 where
  x : ℚ
  y : ℚ
  z : ℚ
  deriving DecidableEq, Repr

/-- Componentwise vector addition (numpy `+`). -/
def V3.add (a b : V3) : V3 := ⟨a.x + b.x, a.y + b.y, a.z + b.z⟩

/-- Componentwise vector subtraction (numpy `-`). -/
def V3.sub (a b : V3) : V3 := ⟨a.x - b.x, a.y - b.y, a.z - b.z⟩

/-- Scalar multiple (numpy `vector * scalar`). -/
def V3.smul (t : ℚ) (a : V3) : V3 := ⟨t * a.x, t * a.y, t * a.z⟩

/-- Squared Euclidean norm.  The source computes `np.linalg.norm(v)`;
every use in the embedded code either compares the norm with a
nonnegative bound or sorts by it, so the squared norm carries exactly
the same information and stays rational. -/
def V3.sqNorm (a : V3) : ℚ := a.x * a.x + a.y * a.y + a.z * a.z

/-- `float('inf')`-aware strict less-than: `fltLt o c` is the Python
comparison `o < c` where `o` may be `float('inf')` (`none`); infinity
is never less than a finite bound. -/
def fltLt (o : Option ℚ) (c : ℚ) : Bool :=
  match o with
  | none => false
  | some x => decide (x < c)

/-- Order on possibly-infinite values (`none` = `float('inf')`), used
to state `min ≤ mean ≤ max` of a TTCResult. -/
def fltLe (a b : Option ℚ) : Prop :=
  match a, b with
  | _, none => True
  | none, some _ => False
  | some x, some y => x ≤ y

/-- `np.min` of a Python list (the source only applies it to nonempty
lists; the `[]` case is arbitrary). -/
def listMin (l : List ℚ) : ℚ :=
  match l with
  | [] => 0
  | x :: xs => xs.foldl min x

/-- `np.max` of a Python list (the source only applies it to nonempty
lists; the `[]` case is arbitrary). -/
def listMax (l : List ℚ) : ℚ :=
  match l with
  | [] => 0
  | x :: xs => xs.foldl max x

/-- `np.mean` / `sum(l)/len(l)` of a Python list. -/
def listMean (l : List ℚ) : ℚ := l.sum / l.length

/-! ## Block 1: degraded_mode.py -/

namespace DegradedMode

/-- `SystemMode` enum from blocks/1_calibration/src/degraded_mode.py. -/
inductive SystemMode where
  | NOMINAL
  | DEGRADED
  | FAULT
  deriving DecidableEq, Repr

/-- `DegradedReason` enum from degraded_mode.py. -/
inductive DegradedReason where
  | NONE
  | TUNNEL_DARK
  | RAIL_SWITCH
  | RAIL_OCCLUSION
  | LOW_CONTRAST
  | CURVE_SHARP
  | WEATHER_SEVERE
  | CALIBRATION_DRIFT
  deriving DecidableEq, Repr

/-- `ModeStatus` dataclass from degraded_mode.py. -/
structure ModeStatus where
  mode : SystemMode
  confidence_score : ℚ
  degraded_reason : DegradedReason
  p_alert_correct : ℚ
  p_miss : ℚ
  recommendation : String
  deriving DecidableEq, Repr

/-- Mutable state of `DegradedModeDetector`: the rolling
`confidence_history` list (`max_history = 30`). -/
structure DetectorState where
  confidence_history : List ℚ
  deriving DecidableEq, Repr

/-- `DegradedModeDetector.__init__`: empty history. -/
def initState : DetectorState := ⟨[]⟩

/-- `DegradedModeDetector._infer_reason`: Python builds the dict
`{RAIL_OCCLUSION: rv, CALIBRATION_DRIFT: cc, LOW_CONTRAST: dc,
TUNNEL_DARK: min(rv, dc)}` and takes `min(factors, key=factors.get)`,
which returns the first key attaining the minimum in insertion
order. -/
def inferReason (rv cc dc _dtc : ℚ) : DegradedReason :=
  let factors : List (DegradedReason × ℚ) :=
    [(DegradedReason.RAIL_OCCLUSION, rv),
     (DegradedReason.CALIBRATION_DRIFT, cc),
     (DegradedReason.LOW_CONTRAST, dc),
     (DegradedReason.TUNNEL_DARK, min rv dc)]
  match factors with
  | [] => DegradedReason.NONE
  | f :: fs => (fs.foldl (fun best p => if p.2 < best.2 then p else best) f).1

/-- The history-window step of `DegradedModeDetector.update`: after
the append, `if len(history) > max_history: pop(0)` removes the single
oldest entry when the list exceeds 30 entries. -/
def window (l : List ℚ) : List ℚ := if 30 < l.length then l.tail else l

/-- The mode-determination block of `DegradedModeDetector.update`:
NOMINAL at average ≥ 0.80, DEGRADED at ≥ 0.40 (with the inferred
dominant reason and interpolated probabilities), else FAULT. -/
def classify (avg_confidence rail_visibility calibration_confidence
    depth_confidence detection_confidence : ℚ) : ModeStatus :=
  if 4/5 ≤ avg_confidence then
    ModeStatus.mk SystemMode.NOMINAL avg_confidence DegradedReason.NONE
      (95/100) (1/1000) "NORMAL_OPERATION"
  else if 2/5 ≤ avg_confidence then
    ModeStatus.mk SystemMode.DEGRADED avg_confidence
      (inferReason rail_visibility calibration_confidence
        depth_confidence detection_confidence)
      (1/2 + avg_confidence * (2/5)) (1/20 + (1 - avg_confidence) * (1/5))
      "OPERATOR_VIGILANCE_REQUIRED"
  else
    ModeStatus.mk SystemMode.FAULT avg_confidence
      DegradedReason.CALIBRATION_DRIFT (3/10) (2/5)
      "MANUAL_CONTROL_REQUIRED"

/-- `DegradedModeDetector.update`: blends the four confidences with
weights 0.30/0.30/0.20/0.20, appends to the history, pops the oldest
entry once the history exceeds 30, averages, and classifies the
average against the thresholds 0.80 and 0.40. -/
def update (s : DetectorState) (rail_visibility calibration_confidence
    depth_confidence detection_confidence : ℚ) : DetectorState × ModeStatus :=
  let overall_confidence :=
    rail_visibility * (3/10) + calibration_confidence * (3/10) +
    depth_confidence * (1/5) + detection_confidence * (1/5)
  let hist := window (s.confidence_history ++ [overall_confidence])
  let avg_confidence := hist.sum / hist.length
  (⟨hist⟩, classify avg_confidence rail_visibility calibration_confidence
    depth_confidence detection_confidence)

/-- Feeding the detector the same four confidences `n` times starting
from a given state, returning the final state and last returned
status (a fresh detector never returns a status before the first
`update`, so `n = 0` pairs the state with an arbitrary status). -/
def feed (s : DetectorState) (rv cc dc dtc : ℚ) : ℕ → DetectorState × ModeStatus
  | 0 => (s, ModeStatus.mk SystemMode.NOMINAL 0 DegradedReason.NONE 1 0 "NORMAL_OPERATION")
  | n + 1 =>
    let p := feed s rv cc dc dtc n
    update p.1 rv cc dc dtc

/-- The smoothed average described by the spec for the
DegradedModeDetector: the 0.30/0.30/0.20/0.20 weighted blend appended
to the history, keeping only the last at most 30 samples, then
averaged.  (Spec-side phrasing, to be compared with `update`.) -/
def specAvg (s : DetectorState) (rv cc dc dtc : ℚ) : ℚ :=
  let samples := s.confidence_history ++ [3/10 * rv + 3/10 * cc + 1/5 * dc + 1/5 * dtc]
  let kept := samples.drop (samples.length - 30)
  kept.sum / kept.length

end DegradedMode

/-! ## Engine 2: persistence (interfaces.py, engine.py, memory/lru_cache.py) -/

namespace Persistence

/-- `TrackState` enum from engine_2_persistence interfaces.py. -/
inductive TrackState where
  | TENTATIVE
  | ACTIVE
  | GHOST
  | DELETED
  deriving DecidableEq, Repr

/-- `Category` enum from engine_2_persistence interfaces.py. -/
inductive Category where
  | PERSON
  | KNOWN
  | UNKNOWN
  deriving DecidableEq, Repr

/-- The `.value` string of the `Category` enum. -/
def Category.value : Category → String
  | Category.PERSON => "PERSON"
  | Category.KNOWN => "KNOWN"
  | Category.UNKNOWN => "UNKNOWN"

/-- `BBox3D` dataclass from interfaces.py. -/
structure BBox3D where
  x : ℚ
  y : ℚ
  z : ℚ
  width : ℚ
  height : ℚ
  depth : ℚ
  deriving DecidableEq, Repr

/-- `Track` dataclass from interfaces.py.  `acceleration` is not a
declared dataclass field; engine_3's predictor probes it with
`hasattr`, so it is modelled as an optional field that is `none`
unless dynamically attached. -/
structure Track where
  track_id : ℕ
  state : TrackState
  category : Category
  bbox_3d : Option BBox3D
  velocity : V3
  acceleration : Option V3
  age : ℕ
  time_since_update : ℕ
  features : List ℚ
  quality_score : ℚ
  match_frequency : ℚ
  confidence : ℚ
  deriving DecidableEq, Repr

/-- `Engine2Persistence._update_matched`: for every `det_idx ->
track_id` assignment whose track id is present, reset
`time_since_update` to 0 and set the state to ACTIVE.  The track dict
is an insertion-ordered `id -> Track` association list. -/
def updateMatched (tracks : List (ℕ × Track)) (assignments : List (ℕ × ℕ)) :
    List (ℕ × Track) :=
  assignments.foldl
    (fun ts a =>
      ts.map (fun p =>
        if p.1 = a.2 then
          (p.1, { p.2 with time_since_update := 0, state := TrackState.ACTIVE })
        else p))
    tracks

/-- `Engine2Persistence._manage_tracks`: iterates over ALL tracks,
increments `time_since_update`, turns ACTIVE tracks with a positive
counter into GHOST, and deletes (state DELETED, then `del`) tracks
whose counter exceeds `max_age`. -/
def manageTracks (tracks : List (ℕ × Track)) (max_age : ℕ) : List (ℕ × Track) :=
  tracks.filterMap (fun p =>
    let t1 := { p.2 with time_since_update := p.2.time_since_update + 1 }
    let t2 :=
      if t1.state = TrackState.ACTIVE ∧ 0 < t1.time_since_update then
        { t1 with state := TrackState.GHOST }
      else t1
    if max_age < t2.time_since_update then none else some (p.1, t2))

/-- Steps 4 and 6 of `Engine2Persistence.process` — the two steps that
touch `time_since_update` (step 5, `_create_new_tracks`, is a stub
that adds nothing).  `ghost_max_age` is 30 in PERSISTENCE_PARAMS. -/
def frameUpdate (tracks : List (ℕ × Track)) (assignments : List (ℕ × ℕ))
    (max_age : ℕ) : List (ℕ × Track) :=
  manageTracks (updateMatched tracks assignments) max_age

/-- `TrackMemory` from memory/lru_cache.py: an `OrderedDict` held as
an association list, least-recently-used first. -/
structure TrackMemory where
  max_size : ℕ
  tracks : List (ℕ × Track)
  deriving DecidableEq, Repr

/-- The eviction candidate chosen by `TrackMemory._evict`: Python
starts with `min_quality = inf`, `evict_id = candidates[0][0]` and
replaces on strictly smaller quality, so the first track attaining the
minimal quality_score among the candidates wins. -/
def evictId (candidates : List (ℕ × Track)) : ℕ :=
  match candidates with
  | [] => 0
  | c :: cs =>
    (cs.foldl (fun best p => if p.2.quality_score < best.2.quality_score then p else best) c).1

/-- `TrackMemory._evict`: restrict to the oldest `len // 2 + 1`
entries, pick the first lowest-quality candidate, delete it.  (The
source's `if not candidates` fallback is dead code: the candidate list
of a nonempty dict is nonempty.) -/
def evict (l : List (ℕ × Track)) : List (ℕ × Track) :=
  if l = [] then l
  else
    let candidates := l.take (l.length / 2 + 1)
    let e := evictId candidates
    l.eraseP (fun p => p.1 == e)

/-- `TrackMemory.put`: update-and-move-to-end when the id exists, else
evict once at capacity and append as most recent. -/
def put (m : TrackMemory) (tr : Track) : TrackMemory :=
  if (m.tracks.map Prod.fst).contains tr.track_id then
    { m with tracks := (m.tracks.eraseP (fun p => p.1 == tr.track_id)) ++ [(tr.track_id, tr)] }
  else if m.max_size ≤ m.tracks.length then
    { m with tracks := evict m.tracks ++ [(tr.track_id, tr)] }
  else
    { m with tracks := m.tracks ++ [(tr.track_id, tr)] }

end Persistence

/-! ## Engine 3: behavior (interfaces.py, ttc/, tom/, risk/, kinematic/, engine.py) -/

namespace Behavior

/-- The four-key posterior dict over the intent states, in the fixed
key order STATIC, LEAVING, APPROACHING, CROSSING used by the
source. -/
structure IntentProbs where
  pSTATIC : ℚ
  pLEAVING : ℚ
  pAPPROACHING : ℚ
  pCROSSING : ℚ
  deriving DecidableEq, Repr

/-- `sum(posteriors.values())`. -/
def IntentProbs.total (p : IntentProbs) : ℚ :=
  p.pSTATIC + p.pLEAVING + p.pAPPROACHING + p.pCROSSING

/-- `posteriors[state]` for a state name from INTENT_STATES (0 for any
other string, which the source never asks for). -/
def IntentProbs.get (p : IntentProbs) (s : String) : ℚ :=
  if s = "STATIC" then p.pSTATIC
  else if s = "LEAVING" then p.pLEAVING
  else if s = "APPROACHING" then p.pAPPROACHING
  else if s = "CROSSING" then p.pCROSSING
  else 0

/-- All four posterior entries strictly positive (holds for every
context prior table and is preserved by the multiplicative
reweighting). -/
def IntentProbs.allPos (p : IntentProbs) : Prop :=
  0 < p.pSTATIC ∧ 0 < p.pLEAVING ∧ 0 < p.pAPPROACHING ∧ 0 < p.pCROSSING

/-- `Intent` dataclass from engine_3_behavior interfaces.py. -/
structure Intent where
  state : String
  distraction_prob : ℚ
  awareness_prob : ℚ
  action_confidence : ℚ
  smoothed : Bool
  probs : IntentProbs
  deriving DecidableEq, Repr

/-- A trajectory sample point: the dict
`{'position': ..., 'timestamp': ..., 'uncertainty': ...}` produced by
`predict_kinematic_v2` (all three keys always present). -/
structure TrajPoint where
  position : V3
  timestamp : ℚ
  uncertainty : ℚ
  deriving DecidableEq, Repr

/-- The `trajectories` dict with its three scenario keys, as built by
`predict_kinematic_v2`. -/
structure Trajectories where
  optimistic : List TrajPoint
  nominal : List TrajPoint
  pessimistic : List TrajPoint
  deriving DecidableEq, Repr

/-- `TrainState` dataclass (the fields the embedded code reads;
acceleration, heading and speed are never read by it). -/
structure TrainState where
  position : V3
  velocity : V3
  deriving DecidableEq, Repr

/-- `TTCResult` dataclass: min/mean/max may be `float('inf')`
(`none`); confidence is documented to lie in [0.3, 1.0]. -/
structure TTCResult where
  min : Option ℚ
  mean : Option ℚ
  max : Option ℚ
  confidence : ℚ
  deriving DecidableEq, Repr

/-- `Prediction` dataclass. -/
structure Prediction where
  track_id : ℕ
  trajectories : Trajectories
  intent : Intent
  collision_prob : ℚ
  ttc : Option ℚ
  risk_score : ℚ
  validated : Bool
  deriving DecidableEq, Repr

/-- `predict_kinematic_v2` from kinematic/predictor.py: constant
acceleration forecast at the given horizons, with the optimistic /
pessimistic scenarios scaling the lateral components by 0.9 / 1.1 and
the depth component by 1.1 / 0.9.  A `None` or absent `bbox_3d` falls
back to (0, 0, 10); an absent `acceleration` attribute to zeros. -/
def predict_kinematic_v2 (track : Persistence.Track) (horizons : List ℚ) :
    Trajectories :=
  let p0 : V3 := match track.bbox_3d with
    | some b => ⟨b.x, b.y, b.z⟩
    | none => ⟨0, 0, 10⟩
  let v := track.velocity
  let a := track.acceleration.getD ⟨0, 0, 0⟩
  let pts := horizons.map (fun t =>
    let f : V3 := ⟨p0.x + v.x * t + 1/2 * a.x * t ^ 2,
                   p0.y + v.y * t + 1/2 * a.y * t ^ 2,
                   p0.z + v.z * t + 1/2 * a.z * t ^ 2⟩
    let u := 1/10 * t ^ 2
    (TrajPoint.mk f t u,
     TrajPoint.mk ⟨f.x * (9/10), f.y * (9/10), f.z * (11/10)⟩ t u,
     TrajPoint.mk ⟨f.x * (11/10), f.y * (11/10), f.z * (9/10)⟩ t u))
  Trajectories.mk (pts.map (fun q => q.2.1)) (pts.map (fun q => q.1))
    (pts.map (fun q => q.2.2))

/-- `get_safety_margin` from ttc/calculator.py: 5/4/7.5/10 metres by
intent state (5 for an unknown state or a `None` intent), times 1.25
when the distraction probability exceeds 0.5. -/
def get_safety_margin (intent : Option Intent) : ℚ :=
  match intent with
  | none => 5
  | some i =>
    let m : ℚ :=
      if i.state = "STATIC" then 5
      else if i.state = "LEAVING" then 4
      else if i.state = "APPROACHING" then 15/2
      else if i.state = "CROSSING" then 10
      else 5
    if 1/2 < i.distraction_prob then m * (5/4) else m

/-- The proximity sort key of `compute_ttc_v2`
(`distance_to_position(p.trajectories.get('nominal', [{}])[0], train_pos)`)
on a prediction whose nominal list is nonempty; the square of the
source's Euclidean distance, which sorts identically.  (The `[]` case
is unreachable: `compute_ttc_v2` is modelled to raise — return `none`
— before sorting when some nominal list is empty, because `([])[0]`
raises IndexError in the source.) -/
def nominalKeySq (trainPos : V3) (p : Prediction) : ℚ :=
  match p.trajectories.nominal with
  | [] => 0
  | pt :: _ => (pt.position.sub trainPos).sqNorm

/-- The inner point loop of `compute_ttc_v2` over one scenario
trajectory: for each sample point, compare the object's position with
the train position advanced to the sample timestamp; a separation
strictly inside the margin records the timestamp as a candidate, and a
candidate below the 1.0 s EMERGENCY_THRESHOLD returns immediately
(`Sum.inl`).  The source compares `np.linalg.norm(diff) < margin`;
both sides are nonnegative so the embedded comparison squares both. -/
def scanTraj (trainPos trainVel : V3) (margin : ℚ) :
    List TrajPoint → List ℚ → Sum ℚ (List ℚ)
  | [], acc => Sum.inr acc
  | pt :: rest, acc =>
    let trainFuture := trainPos.add (V3.smul pt.timestamp trainVel)
    if (pt.position.sub trainFuture).sqNorm < margin ^ 2 then
      if pt.timestamp < 1 then Sum.inl pt.timestamp
      else scanTraj trainPos trainVel margin rest (acc ++ [pt.timestamp])
    else scanTraj trainPos trainVel margin rest acc

/-- The scenario loop of `compute_ttc_v2` for one prediction:
optimistic, nominal, pessimistic in order, with the margin derived
from the prediction's intent (the source recomputes
`get_safety_margin(pred.intent)` at every point; the value is the
same at each). -/
def scanPred (trainPos trainVel : V3) (pred : Prediction) (acc : List ℚ) :
    Sum ℚ (List ℚ) :=
  match scanTraj trainPos trainVel (get_safety_margin (some pred.intent))
      pred.trajectories.optimistic acc with
  | Sum.inl t => Sum.inl t
  | Sum.inr a1 =>
    match scanTraj trainPos trainVel (get_safety_margin (some pred.intent))
        pred.trajectories.nominal a1 with
    | Sum.inl t => Sum.inl t
    | Sum.inr a2 =>
      scanTraj trainPos trainVel (get_safety_margin (some pred.intent))
        pred.trajectories.pessimistic a2

/-- The outer prediction loop of `compute_ttc_v2`. -/
def scanPreds (trainPos trainVel : V3) :
    List Prediction → List ℚ → Sum ℚ (List ℚ)
  | [], acc => Sum.inr acc
  | p :: ps, acc =>
    match scanPred trainPos trainVel p acc with
    | Sum.inl t => Sum.inl t
    | Sum.inr a => scanPreds trainPos trainVel ps a

/-- The `{inf, inf, inf, 1.0}` TTCResult returned when there is no
prediction or no collision candidate. -/
def infTTC : TTCResult := ⟨none, none, none, 1⟩

/-- `np.array(train_state.position) if train_state else np.zeros(3)`. -/
def trainPosOf (train_state : Option TrainState) : V3 :=
  match train_state with
  | some ts => ts.position
  | none => ⟨0, 0, 0⟩

/-- `np.array(train_state.velocity) if train_state else
np.array([0, 0, 10])`. -/
def trainVelOf (train_state : Option TrainState) : V3 :=
  match train_state with
  | some ts => ts.velocity
  | none => ⟨0, 0, 10⟩

/-- `compute_ttc_v2` from ttc/calculator.py.  `none` models the
uncaught IndexError raised by the sort key when some prediction's
nominal trajectory is present but empty
(`p.trajectories.get('nominal', [{}])[0]` on `[]`).  The sort is
Python's stable ascending `sorted`, keyed by distance of the first
nominal point to the train (squared here; same order). -/
def compute_ttc_v2 (train_state : Option TrainState)
    (predictions : List Prediction) (max_tracks : ℕ) : Option TTCResult :=
  if predictions = [] then some infTTC
  else
    let trainPos := trainPosOf train_state
    let trainVel := trainVelOf train_state
    if predictions.any (fun p => p.trajectories.nominal.isEmpty) then none
    else
      let sorted_preds := predictions.mergeSort
        (fun a b => decide (nominalKeySq trainPos a ≤ nominalKeySq trainPos b))
      match scanPreds trainPos trainVel (sorted_preds.take max_tracks) [] with
      | Sum.inl t => some ⟨some t, some t, some t, 99/100⟩
      | Sum.inr [] => some infTTC
      | Sum.inr samples =>
        let tmin := listMin samples
        let tmax := listMax samples
        let conf := min (max (1 - (tmax - tmin) / 10) (3/10)) 1
        some ⟨some tmin, some (listMean samples), some tmax, conf⟩

/-- No sample point of the prediction (any scenario) falls strictly
inside its intent-dependent safety margin of the train's predicted
position — the "no collision candidate" condition of the spec, stated
with the squared-distance comparison used throughout. -/
def noCandidate (trainPos trainVel : V3) (p : Prediction) : Prop :=
  ∀ pt ∈ p.trajectories.optimistic ++ p.trajectories.nominal ++
      p.trajectories.pessimistic,
    ¬((pt.position.sub (trainPos.add (V3.smul pt.timestamp trainVel))).sqNorm <
      (get_safety_margin (some p.intent)) ^ 2)

/-- `get_context_priors` from tom/priors.py:
`CONTEXT_PRIORS.get(scene_context, CONTEXT_PRIORS['OPEN_TRACK'])`. -/
def get_context_priors (scene_context : String) : IntentProbs :=
  if scene_context = "LEVEL_CROSSING" then ⟨1/4, 1/4, 1/4, 1/4⟩
  else if scene_context = "PLATFORM" then ⟨11/20, 1/4, 3/20, 1/20⟩
  else if scene_context = "OPEN_TRACK" then ⟨2/5, 3/10, 1/5, 1/10⟩
  else if scene_context = "CROSSING" then ⟨1/4, 1/4, 1/4, 1/4⟩
  else ⟨2/5, 3/10, 1/5, 1/10⟩

/-- `is_moving_towards_track` from tom/intent.py. -/
def is_moving_towards_track (velocity : V3) : ℚ :=
  if velocity.z < -(1/10) then 1
  else if 1/10 < velocity.z then 0
  else 1/2

/-- First reweighting block of `update_bayesian`: low velocity
doubles STATIC and halves CROSSING.  `velocitySq` is the squared
velocity magnitude: the source tests `np.linalg.norm(v) < 0.1`,
embedded as the squared comparison against 1/100. -/
def stepStatic (p : IntentProbs) (velocitySq : ℚ) : IntentProbs :=
  if velocitySq < 1/100 then
    { p with pSTATIC := p.pSTATIC * 2, pCROSSING := p.pCROSSING * (1/2) }
  else p

/-- Second reweighting block: moving towards the track doubles
APPROACHING and scales LEAVING by 0.3. -/
def stepApproach (p : IntentProbs) (moving_towards : ℚ) : IntentProbs :=
  if 7/10 < moving_towards then
    { p with pAPPROACHING := p.pAPPROACHING * 2, pLEAVING := p.pLEAVING * (3/10) }
  else p

/-- Third reweighting block: moving away doubles LEAVING and scales
APPROACHING by 0.3. -/
def stepLeaving (p : IntentProbs) (moving_towards : ℚ) : IntentProbs :=
  if moving_towards < 3/10 then
    { p with pLEAVING := p.pLEAVING * 2, pAPPROACHING := p.pAPPROACHING * (3/10) }
  else p

/-- Fourth reweighting block: high velocity while facing the track
doubles CROSSING (`‖v‖ > 0.5` embedded as `velocitySq > 1/4`). -/
def stepCrossing (p : IntentProbs) (velocitySq facing : ℚ) : IntentProbs :=
  if 1/4 < velocitySq ∧ 7/10 < facing then
    { p with pCROSSING := p.pCROSSING * 2 }
  else p

/-- The final normalization `{k: v/total for k, v in posteriors.items()}`. -/
def normalizeProbs (p : IntentProbs) : IntentProbs :=
  ⟨p.pSTATIC / p.total, p.pLEAVING / p.total, p.pAPPROACHING / p.total,
   p.pCROSSING / p.total⟩

/-- `update_bayesian` from tom/intent.py: the four sequential
reweighting blocks followed by the normalization.  The `distracted`
observation is read from the dict but never used by the source's
reweighting. -/
def update_bayesian (priors : IntentProbs)
    (velocitySq facing moving_towards _distracted : ℚ) : IntentProbs :=
  normalizeProbs
    (stepCrossing
      (stepLeaving (stepApproach (stepStatic priors velocitySq) moving_towards)
        moving_towards)
      velocitySq facing)

/-- `max(posteriors, key=posteriors.get)`: Python's `max` keeps the
current best on ties, so the first key (in insertion order STATIC,
LEAVING, APPROACHING, CROSSING) attaining the maximum wins. -/
def argmaxState (p : IntentProbs) : String :=
  let b1 := ("STATIC", p.pSTATIC)
  let b2 := if b1.2 < p.pLEAVING then ("LEAVING", p.pLEAVING) else b1
  let b3 := if b2.2 < p.pAPPROACHING then ("APPROACHING", p.pAPPROACHING) else b2
  let b4 := if b3.2 < p.pCROSSING then ("CROSSING", p.pCROSSING) else b3
  b4.1

/-- `smooth_intent` from tom/smoothing.py: with no history, return the
raw intent marked smoothed; otherwise blend each of the four
probabilities and the distraction probability with the most recent
previous intent (weight `alpha` on the current one) and re-select the
argmax state. -/
def smooth_intent (current_intent : Intent) (intent_history : List Intent)
    (alpha : ℚ) : Intent :=
  match intent_history.getLast? with
  | none => { current_intent with smoothed := true }
  | some previous =>
    let sp : IntentProbs :=
      ⟨alpha * current_intent.probs.pSTATIC + (1 - alpha) * previous.probs.pSTATIC,
       alpha * current_intent.probs.pLEAVING + (1 - alpha) * previous.probs.pLEAVING,
       alpha * current_intent.probs.pAPPROACHING + (1 - alpha) * previous.probs.pAPPROACHING,
       alpha * current_intent.probs.pCROSSING + (1 - alpha) * previous.probs.pCROSSING⟩
    let s := argmaxState sp
    Intent.mk s
      (alpha * current_intent.distraction_prob + (1 - alpha) * previous.distraction_prob)
      current_intent.awareness_prob (sp.get s) true sp

/-- The body of `infer_intent_v2` from tom/intent.py with the three
pose-derived scalars as parameters: `facing` is the value of
`is_facing_track`, `distraction_prob` of `compute_distraction`, and
`awareness_prob` of `compute_gaze_awareness` (they reduce SMPL pose
vectors through π-modular arithmetic; every value they can take is
covered by quantifying over these parameters).  Context priors are
Bayesian-reweighted by the observations and the result is temporally
smoothed against the history with α = 0.7. -/
def infer_intent_core (velocity : V3) (facing distraction_prob awareness_prob : ℚ)
    (context : String) (intent_history : List Intent) : Intent :=
  let priors := get_context_priors context
  let velocitySq := velocity.sqNorm
  let moving_towards := is_moving_towards_track velocity
  let posteriors := update_bayesian priors velocitySq facing moving_towards distraction_prob
  let state := argmaxState posteriors
  let raw := Intent.mk state distraction_prob awareness_prob (posteriors.get state)
    false posteriors
  smooth_intent raw intent_history (7/10)

/-- `infer_intent_v2` at `smpl_params = None` — its only call site
(`Engine3Behavior._infer_intent`) passes `None`, which makes
`is_facing_track` return 0.5, `compute_distraction` 0.3 and
`compute_gaze_awareness` 0.5. -/
def infer_intent_v2 (velocity : V3) (context : String)
    (intent_history : List Intent) : Intent :=
  infer_intent_core velocity (1/2) (3/10) (1/2) context intent_history

/-- `compute_risk_score_v2` from risk/scorer.py.  A `None` track makes
the `hasattr` probes fail: category falls back to the string UNKNOWN
and quality_score to 0.5. -/
def compute_risk_score_v2 (track : Option Persistence.Track)
    (intent : Option Intent) (ttc_result : Option TTCResult)
    (prev_risk : Option ℚ) : ℚ :=
  let ttc : Option ℚ := match ttc_result with
    | some r => r.min
    | none => none
  let ttc_factor : ℚ := match ttc with
    | none => 0
    | some t => 1 - min (t / 10) 1
  let intent_state := match intent with
    | some i => i.state
    | none => "STATIC"
  let intent_factor : ℚ :=
    if intent_state = "STATIC" then 1/10
    else if intent_state = "LEAVING" then 1/5
    else if intent_state = "APPROACHING" then 7/10
    else if intent_state = "CROSSING" then 1
    else 1/2
  let distraction_factor : ℚ := match intent with
    | some i => i.distraction_prob
    | none => 0
  let category : String := match track with
    | some t => t.category.value
    | none => "UNKNOWN"
  let category_factor : ℚ :=
    if category = "PERSON" then 1
    else if category = "KNOWN" then 7/10
    else if category = "UNKNOWN" then 3/10
    else 1/2
  let quality_score : ℚ := match track with
    | some t => t.quality_score
    | none => 1/2
  let quality_factor := 1 - quality_score
  let raw_risk :=
    35/100 * ttc_factor + 25/100 * intent_factor + 15/100 * distraction_factor +
    1/10 * category_factor + 15/100 * quality_factor
  let conf : ℚ := match ttc_result with
    | some r => r.confidence
    | none => 1
  let confidence_adjusted := raw_risk * (2 - conf)
  let final_risk := match prev_risk with
    | some pr => 7/10 * confidence_adjusted + 3/10 * pr
    | none => confidence_adjusted
  min (max final_risk 0) 1

/-! ### Engine3Behavior.process (engine.py) -/

/-- Python dict lookup on an insertion-ordered association list. -/
def lookupKey {α : Type} (l : List (ℕ × α)) (k : ℕ) : Option α :=
  (l.find? (fun p => p.1 == k)).map Prod.snd

/-- Python dict assignment: overwrite in place when the key exists
(insertion order kept), else append. -/
def setKey {α : Type} (l : List (ℕ × α)) (k : ℕ) (v : α) : List (ℕ × α) :=
  if (l.map Prod.fst).contains k then
    l.map (fun p => if p.1 = k then (k, v) else p)
  else l ++ [(k, v)]

/-- `lst[-n:]`. -/
def lastN {α : Type} (n : ℕ) (l : List α) : List α := l.drop (l.length - n)

/-- The mutable state of `Engine3Behavior`: `self.prev_intents` and
`self.prev_risks`. -/
structure EngineState where
  prev_intents : List (ℕ × List Intent)
  prev_risks : List (ℕ × ℚ)
  deriving DecidableEq, Repr

/-- `Engine3Behavior.__init__`. -/
def initEngine : EngineState := ⟨[], []⟩

/-- `ENGINE3_PARAMS['horizons']`. -/
def engineHorizons : List ℚ := [1, 2, 3, 4, 5]

/-- `Engine3Behavior._determine_validation`. -/
def determine_validation (predictions : List Prediction) : String :=
  match predictions with
  | [] => "OK"
  | _ =>
    let validated_count := predictions.countP (fun p => p.validated)
    if validated_count = predictions.length then "VALIDATED"
    else if 0 < validated_count then "PARTIAL"
    else "UNCERTAIN"

/-- `Engine3Behavior._compute_safety_margin`
(`base_safety_margin = 5.0`). -/
def compute_safety_margin (predictions : List Prediction) : ℚ :=
  let max_multiplier := predictions.foldl
    (fun mm pred =>
      let m : ℚ :=
        if pred.intent.state = "CROSSING" then 2
        else if pred.intent.state = "APPROACHING" then 3/2
        else if pred.intent.state = "LEAVING" then 4/5
        else 1
      let m := if 1/2 < pred.intent.distraction_prob then m * (5/4) else m
      max mm m)
    1
  5 * max_multiplier

/-- One iteration of the per-track loop of `Engine3Behavior.process`
(steps 1–5): forecast trajectories, infer intent against the per-id
history, append the intent to the history trimmed to its last 5
entries, and build the prediction.  The pose prediction of step 2 is
computed and then never read by the source, and with
`optical_flow = None` (the embedded call path) `pred.validated` keeps
its False default. -/
def buildStep (scene_context : String)
    (acc : List (ℕ × List Intent) × List Prediction)
    (track : Persistence.Track) :
    List (ℕ × List Intent) × List Prediction :=
  let trajectories := predict_kinematic_v2 track engineHorizons
  let history := (lookupKey acc.1 track.track_id).getD []
  let intent := infer_intent_v2 track.velocity scene_context history
  let pi' := setKey acc.1 track.track_id (lastN 5 (history ++ [intent]))
  let pred := Prediction.mk track.track_id trajectories intent 0 none 0 false
  (pi', acc.2 ++ [pred])

/-- The per-track loop of `Engine3Behavior.process` (steps 1–5). -/
def buildPredictions (prev_intents : List (ℕ × List Intent))
    (tracks : List Persistence.Track) (scene_context : String) :
    List (ℕ × List Intent) × List Prediction :=
  tracks.foldl (buildStep scene_context) (prev_intents, [])

/-- Agreement of two tracks on every field except `category` and
`quality_score` — the two Track attributes that feed only the risk
scorer. -/
def tracksAgreeExceptRisk (a b : Persistence.Track) : Prop :=
  a.track_id = b.track_id ∧ a.state = b.state ∧ a.bbox_3d = b.bbox_3d ∧
  a.velocity = b.velocity ∧ a.acceleration = b.acceleration ∧ a.age = b.age ∧
  a.time_since_update = b.time_since_update ∧ a.features = b.features ∧
  a.match_frequency = b.match_frequency ∧ a.confidence = b.confidence

/-- Step 7 of `Engine3Behavior.process`: for each prediction, the risk
is computed from `tracks[0] if tracks else None` (not the prediction's
own track), reading and then updating `self.prev_risks` under the
prediction's track id; the risk is also written onto the
prediction. -/
def assignRisks (firstTrack : Option Persistence.Track)
    (predictions : List Prediction) (ttc_result : TTCResult)
    (prev_risks : List (ℕ × ℚ)) :
    List Prediction × List (ℕ × ℚ) × List (ℕ × ℚ) :=
  predictions.foldl
    (fun acc pred =>
      let risk := compute_risk_score_v2 firstTrack (some pred.intent)
        (some ttc_result) (lookupKey acc.2.2 pred.track_id)
      (acc.1 ++ [{ pred with risk_score := risk }],
       setKey acc.2.1 pred.track_id risk,
       setKey acc.2.2 pred.track_id risk))
    ([], [], prev_risks)

/-- The output dict of `Engine3Behavior.process`. -/
structure BehaviorOut where
  predictions : List Prediction
  risk_scores : List (ℕ × ℚ)
  ttc : TTCResult
  safety_margin : ℚ
  validation_status : String
  deriving DecidableEq, Repr

/-- `Engine3Behavior.process`, embedded at `optical_flow = None` (so
step 5's cross-validation is skipped and every prediction stays
unvalidated).  `none` propagates the IndexError that `compute_ttc_v2`
can raise. -/
def process (st : EngineState) (tracks : List Persistence.Track)
    (train_state : Option TrainState) (scene_context : String) :
    Option (EngineState × BehaviorOut) :=
  let built := buildPredictions st.prev_intents tracks scene_context
  match compute_ttc_v2 train_state built.2 30 with
  | none => none
  | some ttc_result =>
    let ar := assignRisks tracks.head? built.2 ttc_result st.prev_risks
    some (⟨built.1, ar.2.2⟩,
      BehaviorOut.mk ar.1 ar.2.1 ttc_result (compute_safety_margin ar.1)
        (determine_validation ar.1))

end Behavior

/-! ## Block 5: safety envelope -/

namespace Safety

open DegradedMode
open Behavior

/-- `Action` enum from blocks/5_safety_envelope/src/interfaces.py. -/
inductive Action where
  | EMERGENCY_BRAKE
  | SERVICE_BRAKE
  | WARNING
  | CAUTION
  | CLEAR
  deriving DecidableEq, Repr

/-- `evaluate_ttc` from evaluator/ttc.py: picks `ttc.min` with forced
confidence 0.5 when validation is UNCERTAIN or confidence is below
0.7, else `ttc.mean` with the reported confidence. -/
def evaluate_ttc (ttc_result : TTCResult) (validation_status : String) :
    Option ℚ × ℚ :=
  if validation_status = "UNCERTAIN" ∨ ttc_result.confidence < 7/10 then
    (ttc_result.min, 1/2)
  else
    (ttc_result.mean, ttc_result.confidence)

/-- `aggregate_risk` from aggregator/risk.py: max risk over the
per-track dict plus the count of risks above 0.8; `(0.0, 0)` for the
empty dict. -/
def aggregate_risk (risk_scores : List (ℕ × ℚ)) : ℚ × ℕ :=
  match risk_scores with
  | [] => (0, 0)
  | _ =>
    (listMax (risk_scores.map Prod.snd),
     risk_scores.countP (fun r => decide (4/5 < r.2)))

/-- `decide_action` from decision/engine.py (the NOMINAL-mode
policy). -/
def decide_action (effective_ttc : Option ℚ) (max_risk : ℚ)
    (critical_count : ℕ) (validation_status : String) : Action :=
  if fltLt effective_ttc 1 ∨ 3 ≤ critical_count then Action.EMERGENCY_BRAKE
  else if fltLt effective_ttc 2 ∧ 4/5 < max_risk then Action.SERVICE_BRAKE
  else if fltLt effective_ttc 3 then Action.WARNING
  else if fltLt effective_ttc 5 ∨ validation_status = "UNCERTAIN" then Action.CAUTION
  else Action.CLEAR

/-- `SafetyVeto._degraded_action`: alerts only, never a brake action
(the `risk` argument is accepted and ignored, as in the source). -/
def degraded_action (ttc : Option ℚ) (_risk : ℚ) : Action :=
  if fltLt ttc 1 then Action.WARNING
  else if fltLt ttc 2 then Action.WARNING
  else if fltLt ttc 3 then Action.CAUTION
  else Action.CLEAR

/-- The dict returned by `SafetyVeto.evaluate`; the four probability /
reason / recommendation keys are only present (`some`) in DEGRADED
mode with a ModeStatus supplied. -/
structure EvalResult where
  action : Action
  ttc_used : Option ℚ
  max_risk : ℚ
  system_mode : SystemMode
  braking_enabled : Bool
  p_alert_correct : Option ℚ
  p_miss : Option ℚ
  degraded_reason : Option DegradedReason
  recommendation : Option String
  deriving DecidableEq, Repr

/-- `SafetyVeto.evaluate` from safety.py.  `current_mode` is the
stored `self.current_mode`; a supplied `mode_status` (a dataclass
instance, hence always truthy) overrides it.  The train_state argument
of the source is never read, and the NOMINAL-mode hardwire-brake GPIO
call is an external side effect with no bearing on the returned
value. -/
def evaluate (current_mode : SystemMode) (ttc_result : TTCResult)
    (risk_scores : List (ℕ × ℚ)) (validation_status : String)
    (mode_status : Option ModeStatus) : EvalResult :=
  let mode := match mode_status with
    | some ms => ms.mode
    | none => current_mode
  let et := evaluate_ttc ttc_result validation_status
  let ar := aggregate_risk risk_scores
  let action := match mode with
    | SystemMode.NOMINAL => decide_action et.1 ar.1 ar.2 validation_status
    | SystemMode.DEGRADED => degraded_action et.1 ar.1
    | SystemMode.FAULT => Action.CLEAR
  let base := EvalResult.mk action et.1 ar.1 mode (decide (mode = SystemMode.NOMINAL))
    none none none none
  match mode_status with
  | some ms =>
    if mode = SystemMode.DEGRADED then
      { base with p_alert_correct := some ms.p_alert_correct,
                  p_miss := some ms.p_miss,
                  degraded_reason := some ms.degraded_reason,
                  recommendation := some ms.recommendation }
    else base
  | none => base

end Safety

/-! ## Engine 2: tracking/association.py -/

namespace Association

/-- A numpy matrix of floats (reals): shape plus entries. -/
structure Mat where
  rows : ℕ
  cols : ℕ
  entry : ℕ → ℕ → ℝ

/-- `np.zeros((r, c))`. -/
def zerosMat (r c : ℕ) : Mat := ⟨r, c, fun _ _ => 0⟩

/-- `compute_iou_matrix` from association.py.  The body is a TODO
stub that returns `np.random.rand(N, M)`: the entries are a fresh draw
from the process RNG, modelled by the `rand` oracle parameter — two
runs of the program correspond to two different oracles.  The empty
case returns zeros.  Only the shapes of the bbox lists are read. -/
def compute_iou_matrix {α β : Type} (rand : ℕ → ℕ → ℝ)
    (bboxes_a : List α) (bboxes_b : List β) : Mat :=
  if bboxes_a.length = 0 ∨ bboxes_b.length = 0 then
    zerosMat bboxes_a.length bboxes_b.length
  else
    ⟨bboxes_a.length, bboxes_b.length, rand⟩

/-- `np.linalg.norm` of a feature row. -/
noncomputable def rowNorm (v : List ℝ) : ℝ :=
  Real.sqrt (v.map (fun x => x * x)).sum

/-- Row normalization `a / (norm(a) + 1e-8)`. -/
noncomputable def normalizeRow (v : List ℝ) : List ℝ :=
  v.map (fun x => x / (rowNorm v + 1/100000000))

/-- Row dot product. -/
def dotRow (a b : List ℝ) : ℝ := (List.zipWith (· * ·) a b).sum

/-- `compute_cosine_distance` from association.py: normalize both
feature matrices row-wise and return `1 - similarity`. -/
noncomputable def compute_cosine_distance (features_a features_b : List (List ℝ)) : Mat :=
  if features_a.length = 0 ∨ features_b.length = 0 then
    zerosMat features_a.length features_b.length
  else
    ⟨features_a.length, features_b.length,
     fun i j => 1 - dotRow (normalizeRow (features_a.getD i []))
       (normalizeRow (features_b.getD j []))⟩

/-- `hungarian_matching` from association.py: a TODO stub that
ignores the cost matrix entries and the threshold, returning no
matches and everything unmatched. -/
def hungarian_matching (cost_matrix : Mat) (_threshold : ℝ) :
    List (ℕ × ℕ) × List ℕ × List ℕ :=
  ([], List.range cost_matrix.rows, List.range cost_matrix.cols)

/-- `associate_detections` from association.py: two-stage IoU + ReID
association.  The matched dict is an association list `det_idx ->
track_idx`; stage-2 results are merged back through the unmatched
index lists. -/
noncomputable def associate_detections {α β : Type} (rand : ℕ → ℕ → ℝ)
    (detections : List α) (tracks : List β)
    (features_det features_track : List (List ℝ))
    (iou_threshold reid_threshold : ℝ) :
    List (ℕ × ℕ) × List ℕ × List ℕ :=
  if tracks.length = 0 then ([], List.range detections.length, [])
  else if detections.length = 0 then ([], [], List.range tracks.length)
  else
    let iou_matrix := compute_iou_matrix rand detections tracks
    let cost_iou : Mat := ⟨iou_matrix.rows, iou_matrix.cols,
      fun i j => 1 - iou_matrix.entry i j⟩
    let s1 := hungarian_matching cost_iou (1 - iou_threshold)
    let matched_iou := s1.1
    let unmatched_dets := s1.2.1
    let unmatched_tracks := s1.2.2
    if 0 < unmatched_dets.length ∧ 0 < unmatched_tracks.length then
      let feat_det_remaining := unmatched_dets.map (fun i => features_det.getD i [])
      let feat_track_remaining := unmatched_tracks.map (fun i => features_track.getD i [])
      let cost_reid := compute_cosine_distance feat_det_remaining feat_track_remaining
      let s2 := hungarian_matching cost_reid reid_threshold
      let merged := matched_iou ++
        s2.1.map (fun p => (unmatched_dets.getD p.1 0, unmatched_tracks.getD p.2 0))
      (merged, s2.2.1.map (fun i => unmatched_dets.getD i 0),
       s2.2.2.map (fun i => unmatched_tracks.getD i 0))
    else (matched_iou, unmatched_dets, unmatched_tracks)

end Association

/-! ## Concrete demonstration inputs

Two tracks that differ only in `category` and `quality_score`
(PERSON/0.8 versus KNOWN/0.4), both stationary 1000 m ahead of the
train, used to exhibit which track the risk scorer reads. -/

/-- Demo track 0: PERSON with quality_score 0.8, stationary at
(0, 0, 1000). -/
def demoTrack0 : Persistence.Track :=
  Persistence.Track.mk 0 Persistence.TrackState.ACTIVE Persistence.Category.PERSON
    (some (Persistence.BBox3D.mk 0 0 1000 1 2 1)) ⟨0, 0, 0⟩ none 10 0 [] (4/5)
    (1/2) (3/5)

/-- Demo track 1: identical to demo track 0 except KNOWN category and
quality_score 0.4. -/
def demoTrack1 : Persistence.Track :=
  Persistence.Track.mk 1 Persistence.TrackState.ACTIVE Persistence.Category.KNOWN
    (some (Persistence.BBox3D.mk 0 0 1000 1 2 1)) ⟨0, 0, 0⟩ none 10 0 [] (2/5)
    (1/2) (3/5)

/-- The intent `infer_intent_v2` computes for a stationary track in an
OPEN_TRACK context with empty history. -/
def demoIntent : Behavior.Intent :=
  Behavior.Intent.mk "STATIC" (3/10) (1/2) (16/27) true ⟨16/27, 2/9, 4/27, 1/27⟩

/-- The trajectories `predict_kinematic_v2` forecasts for the demo
tracks (stationary at depth 1000 m, horizons 1–5 s). -/
def demoTraj : Behavior.Trajectories :=
  Behavior.Trajectories.mk
    [Behavior.TrajPoint.mk ⟨0, 0, 1100⟩ 1 (1/10), Behavior.TrajPoint.mk ⟨0, 0, 1100⟩ 2 (2/5),
     Behavior.TrajPoint.mk ⟨0, 0, 1100⟩ 3 (9/10), Behavior.TrajPoint.mk ⟨0, 0, 1100⟩ 4 (8/5),
     Behavior.TrajPoint.mk ⟨0, 0, 1100⟩ 5 (5/2)]
    [Behavior.TrajPoint.mk ⟨0, 0, 1000⟩ 1 (1/10), Behavior.TrajPoint.mk ⟨0, 0, 1000⟩ 2 (2/5),
     Behavior.TrajPoint.mk ⟨0, 0, 1000⟩ 3 (9/10), Behavior.TrajPoint.mk ⟨0, 0, 1000⟩ 4 (8/5),
     Behavior.TrajPoint.mk ⟨0, 0, 1000⟩ 5 (5/2)]
    [Behavior.TrajPoint.mk ⟨0, 0, 900⟩ 1 (1/10), Behavior.TrajPoint.mk ⟨0, 0, 900⟩ 2 (2/5),
     Behavior.TrajPoint.mk ⟨0, 0, 900⟩ 3 (9/10), Behavior.TrajPoint.mk ⟨0, 0, 900⟩ 4 (8/5),
     Behavior.TrajPoint.mk ⟨0, 0, 900⟩ 5 (5/2)]

/-- The prediction `process` builds for demo track 0. -/
def demoPred0 : Behavior.Prediction :=
  Behavior.Prediction.mk 0 demoTraj demoIntent 0 none 0 false

/-- The prediction `process` builds for demo track 1. -/
def demoPred1 : Behavior.Prediction :=
  Behavior.Prediction.mk 1 demoTraj demoIntent 0 none 0 false

/-! ## Theorems -/

/-- In DEGRADED mode the returned action is one of the three
alert-only actions, whatever the TTC and risks. -/
theorem Safety.degraded_action_alert_only (t : Option ℚ) (r : ℚ) :
    Safety.degraded_action t r = Safety.Action.WARNING ∨
    Safety.degraded_action t r = Safety.Action.CAUTION ∨
    Safety.degraded_action t r = Safety.Action.CLEAR := by
  unfold Safety.degraded_action
  split_ifs <;> simp

/-- Reduction of `SafetyVeto.evaluate` when the effective mode is
DEGRADED: the action is `_degraded_action` of the effective TTC and
the aggregated risk, and braking is disabled. -/
theorem Safety.evaluate_degraded_reduce (ttc_result : Behavior.TTCResult)
    (risk_scores : List (ℕ × ℚ)) (validation_status : String)
    (mode_status : Option DegradedMode.ModeStatus)
    (h : ∀ ms ∈ mode_status, ms.mode = DegradedMode.SystemMode.DEGRADED) :
    (Safety.evaluate DegradedMode.SystemMode.DEGRADED ttc_result risk_scores
        validation_status mode_status).action =
      Safety.degraded_action
        (Safety.evaluate_ttc ttc_result validation_status).1
        (Safety.aggregate_risk risk_scores).1 ∧
    (Safety.evaluate DegradedMode.SystemMode.DEGRADED ttc_result risk_scores
        validation_status mode_status).braking_enabled = false := by
  cases mode_status with
  | none => exact ⟨rfl, rfl⟩
  | some m =>
    obtain ⟨mmode, mc, mdr, mpa, mpm, mrec⟩ := m
    have hm : mmode = DegradedMode.SystemMode.DEGRADED := h _ rfl
    subst hm
    exact ⟨rfl, rfl⟩

/-- C1: for every TTC result, risk map, validation status (the train
state argument of the source is never read) and any mode_status that
does not override the mode away from DEGRADED, `SafetyVeto.evaluate`
under DEGRADED returns an action in WARNING/CAUTION/CLEAR — never
EMERGENCY_BRAKE or SERVICE_BRAKE — with braking_enabled False; and
concretely, TTC 0.1 with risk 0.99 yields WARNING. -/
theorem safety_veto_degraded_never_brakes
    (ttc_result : Behavior.TTCResult) (risk_scores : List (ℕ × ℚ))
    (validation_status : String) (mode_status : Option DegradedMode.ModeStatus)
    (h : ∀ ms ∈ mode_status, ms.mode = DegradedMode.SystemMode.DEGRADED) :
    ((Safety.evaluate DegradedMode.SystemMode.DEGRADED ttc_result risk_scores
        validation_status mode_status).action = Safety.Action.WARNING ∨
     (Safety.evaluate DegradedMode.SystemMode.DEGRADED ttc_result risk_scores
        validation_status mode_status).action = Safety.Action.CAUTION ∨
     (Safety.evaluate DegradedMode.SystemMode.DEGRADED ttc_result risk_scores
        validation_status mode_status).action = Safety.Action.CLEAR) ∧
    (Safety.evaluate DegradedMode.SystemMode.DEGRADED ttc_result risk_scores
        validation_status mode_status).action ≠ Safety.Action.EMERGENCY_BRAKE ∧
    (Safety.evaluate DegradedMode.SystemMode.DEGRADED ttc_result risk_scores
        validation_status mode_status).action ≠ Safety.Action.SERVICE_BRAKE ∧
    (Safety.evaluate DegradedMode.SystemMode.DEGRADED ttc_result risk_scores
        validation_status mode_status).braking_enabled = false ∧
    (Safety.evaluate DegradedMode.SystemMode.DEGRADED
        ⟨some (1/10), some (1/10), some (1/10), 99/100⟩
        [(0, 99/100)] "OK" none).action = Safety.Action.WARNING := by
  obtain ⟨ha, hb⟩ := Safety.evaluate_degraded_reduce ttc_result risk_scores
    validation_status mode_status h
  refine ⟨?_, ?_, ?_, hb, ?_⟩
  · rw [ha]; exact Safety.degraded_action_alert_only _ _
  · rw [ha]
    rcases Safety.degraded_action_alert_only
      (Safety.evaluate_ttc ttc_result validation_status).1
      (Safety.aggregate_risk risk_scores).1 with h1 | h1 | h1 <;> simp [h1]
  · rw [ha]
    rcases Safety.degraded_action_alert_only
      (Safety.evaluate_ttc ttc_result validation_status).1
      (Safety.aggregate_risk risk_scores).1 with h1 | h1 | h1 <;> simp [h1]
  · have h0 := (Safety.evaluate_degraded_reduce
      ⟨some (1/10), some (1/10), some (1/10), 99/100⟩
      [(0, 99/100)] "OK" none (by simp)).1
    rw [h0]
    have he : (Safety.evaluate_ttc
        ⟨some (1/10), some (1/10), some (1/10), 99/100⟩ "OK").1 = some (1/10) := by
      norm_num [Safety.evaluate_ttc]
      split <;> rfl
    rw [he]
    norm_num [Safety.degraded_action, fltLt]

/-- Witness for C1: the theorem applied at concrete inputs (empty
risk map, infinite TTC, no mode_status override). -/
theorem safety_veto_degraded_never_brakes_witness :
    (Safety.evaluate DegradedMode.SystemMode.DEGRADED ⟨none, none, none, 1⟩ []
      "OK" none).braking_enabled = false ∧
    (Safety.evaluate DegradedMode.SystemMode.DEGRADED
      ⟨some (1/10), some (1/10), some (1/10), 99/100⟩
      [(0, 99/100)] "OK" none).action = Safety.Action.WARNING :=
  ⟨(safety_veto_degraded_never_brakes ⟨none, none, none, 1⟩ [] "OK" none
      (by simp)).2.2.2.1,
   (safety_veto_degraded_never_brakes ⟨none, none, none, 1⟩ [] "OK" none
      (by simp)).2.2.2.2⟩

/-- On histories of at most 31 entries (the reachable ones), the
append-then-pop window of `update` keeps exactly the last at most 30
entries. -/
theorem DegradedMode.window_eq_drop (l : List ℚ) (h : l.length ≤ 31) :
    DegradedMode.window l = l.drop (l.length - 30) := by
  unfold DegradedMode.window
  by_cases hc : 30 < l.length
  · rw [if_pos hc]
    have h1 : l.length - 30 = 1 := by omega
    rw [h1, ← List.drop_one l]
  · rw [if_neg hc]
    have h0 : l.length - 30 = 0 := by omega
    rw [h0, List.drop_zero]

/-- Feeding a fresh detector the same four confidences `n` times
leaves the history at `min n 30` copies of their weighted blend. -/
theorem DegradedMode.feed_hist (rv cc dc dtc : ℚ) (n : ℕ) :
    (DegradedMode.feed DegradedMode.initState rv cc dc dtc n).1 =
      ⟨List.replicate (min n 30)
        (rv * (3/10) + cc * (3/10) + dc * (1/5) + dtc * (1/5))⟩ := by
  induction n with
  | zero => simp [DegradedMode.feed, DegradedMode.initState]
  | succ n ih =>
    show (DegradedMode.update
        (DegradedMode.feed DegradedMode.initState rv cc dc dtc n).1 rv cc dc dtc).1 = _
    rw [ih]
    show DetectorState.mk (DegradedMode.window
      (List.replicate (min n 30) (rv * (3/10) + cc * (3/10) + dc * (1/5) + dtc * (1/5)) ++
        [rv * (3/10) + cc * (3/10) + dc * (1/5) + dtc * (1/5)])) = _
    rw [← List.replicate_succ']
    unfold DegradedMode.window
    by_cases h : 30 ≤ n
    · have h1 : min n 30 = 30 := by omega
      have h2 : min (n + 1) 30 = 30 := by omega
      rw [h1, h2]
      simp
    · have h1 : min n 30 = n := by omega
      have h2 : min (n + 1) 30 = n + 1 := by omega
      rw [h1, h2, if_neg (by simp; omega)]

/-- Unfolding equation for `update`. -/
theorem DegradedMode.update_def (s : DegradedMode.DetectorState) (rv cc dc dtc : ℚ) :
    DegradedMode.update s rv cc dc dtc =
      (⟨DegradedMode.window (s.confidence_history ++
          [rv * (3/10) + cc * (3/10) + dc * (1/5) + dtc * (1/5)])⟩,
       DegradedMode.classify
        ((DegradedMode.window (s.confidence_history ++
          [rv * (3/10) + cc * (3/10) + dc * (1/5) + dtc * (1/5)])).sum /
         ((DegradedMode.window (s.confidence_history ++
          [rv * (3/10) + cc * (3/10) + dc * (1/5) + dtc * (1/5)])).length : ℚ))
        rv cc dc dtc) := rfl

/-- The three mode outcomes of `classify`, each characterized by its
threshold interval. -/
theorem DegradedMode.classify_mode (avg rv cc dc dtc : ℚ) :
    ((DegradedMode.classify avg rv cc dc dtc).mode = DegradedMode.SystemMode.NOMINAL ↔
      4/5 ≤ avg) ∧
    ((DegradedMode.classify avg rv cc dc dtc).mode = DegradedMode.SystemMode.DEGRADED ↔
      2/5 ≤ avg ∧ avg < 4/5) ∧
    ((DegradedMode.classify avg rv cc dc dtc).mode = DegradedMode.SystemMode.FAULT ↔
      avg < 2/5) := by
  unfold DegradedMode.classify
  split_ifs with h1 h2
  · refine ⟨by simp [h1], ?_, ?_⟩
    · constructor
      · intro hcon; exact absurd hcon (by simp)
      · rintro ⟨-, hlt⟩; exact absurd h1 (by linarith)
    · constructor
      · intro hcon; exact absurd hcon (by simp)
      · intro hlt; exact absurd h1 (by linarith)
  · refine ⟨?_, by simp [h2, lt_of_not_le h1], ?_⟩
    · constructor
      · intro hcon; exact absurd hcon (by simp)
      · intro hge; exact absurd h1 (by simp [hge])
    · constructor
      · intro hcon; exact absurd hcon (by simp)
      · intro hlt; exact absurd h2 (by linarith)
  · refine ⟨?_, ?_, by simp [lt_of_not_le h2]⟩
    · constructor
      · intro hcon; exact absurd hcon (by simp)
      · intro hge; exact absurd h2 (by linarith)
    · constructor
      · intro hcon; exact absurd hcon (by simp)
      · rintro ⟨hge, -⟩; exact absurd h2 (by simp [hge])

/-- `update` on a history of `k` copies of the very blend being fed
classifies exactly that blend value (the average of a constant list is
its value). -/
theorem DegradedMode.update_replicate (k : ℕ) (q rv cc dc dtc : ℚ)
    (hq : rv * (3/10) + cc * (3/10) + dc * (1/5) + dtc * (1/5) = q) :
    (DegradedMode.update ⟨List.replicate k q⟩ rv cc dc dtc).2 =
      DegradedMode.classify q rv cc dc dtc := by
  rw [DegradedMode.update_def]
  have hl : (DegradedMode.DetectorState.mk (List.replicate k q)).confidence_history ++
      [rv * (3/10) + cc * (3/10) + dc * (1/5) + dtc * (1/5)] =
      List.replicate (k + 1) q := by
    rw [List.replicate_succ' k q, hq]
  rw [hl]
  have hwin : ∃ m : ℕ, m ≠ 0 ∧
      DegradedMode.window (List.replicate (k + 1) q) = List.replicate m q := by
    unfold DegradedMode.window
    by_cases h : 30 < k + 1
    · refine ⟨k, by omega, ?_⟩
      rw [if_pos (by simpa using h)]
      simp
    · exact ⟨k + 1, by omega, by rw [if_neg (by simpa using h)]⟩
  obtain ⟨m, hm, hw⟩ := hwin
  rw [hw]
  have havg : (List.replicate m q).sum / ((List.replicate m q).length : ℚ) = q := by
    simp only [List.sum_replicate, List.length_replicate, nsmul_eq_mul]
    have : (m : ℚ) ≠ 0 := Nat.cast_ne_zero.mpr hm
    field_simp
  rw [havg]

/-- C5: `DegradedModeDetector.update` blends the four confidences with
weights 0.30/0.30/0.20/0.20, averages the last at most 30 samples,
and returns NOMINAL iff that average is ≥ 0.80, DEGRADED iff it is in
[0.40, 0.80), FAULT otherwise; a fresh detector fed
(0.95, 0.90, 0.88, 0.92) at least 30 times reports NOMINAL with
p_miss = 0.001 < 0.01, and fed (0.10, 0.15, 0.20, 0.25) at least 30
times reports FAULT recommending MANUAL_CONTROL_REQUIRED. -/
theorem degraded_mode_detector_policy :
    (∀ (s : DegradedMode.DetectorState) (rv cc dc dtc : ℚ),
      s.confidence_history.length ≤ 30 →
      ((DegradedMode.update s rv cc dc dtc).2.mode = DegradedMode.SystemMode.NOMINAL ↔
        4/5 ≤ DegradedMode.specAvg s rv cc dc dtc) ∧
      ((DegradedMode.update s rv cc dc dtc).2.mode = DegradedMode.SystemMode.DEGRADED ↔
        2/5 ≤ DegradedMode.specAvg s rv cc dc dtc ∧
        DegradedMode.specAvg s rv cc dc dtc < 4/5) ∧
      ((DegradedMode.update s rv cc dc dtc).2.mode = DegradedMode.SystemMode.FAULT ↔
        DegradedMode.specAvg s rv cc dc dtc < 2/5)) ∧
    (∀ n : ℕ, 30 ≤ n →
      (DegradedMode.feed DegradedMode.initState (95/100) (9/10) (88/100) (92/100) n).2.mode =
        DegradedMode.SystemMode.NOMINAL ∧
      (DegradedMode.feed DegradedMode.initState (95/100) (9/10) (88/100) (92/100) n).2.p_miss
        < 1/100) ∧
    (∀ n : ℕ, 30 ≤ n →
      (DegradedMode.feed DegradedMode.initState (1/10) (3/20) (1/5) (1/4) n).2.mode =
        DegradedMode.SystemMode.FAULT ∧
      (DegradedMode.feed DegradedMode.initState (1/10) (3/20) (1/5) (1/4) n).2.recommendation =
        "MANUAL_CONTROL_REQUIRED") := by
  refine ⟨?_, ?_, ?_⟩
  · intro s rv cc dc dtc hlen
    have hoc : rv * (3/10) + cc * (3/10) + dc * (1/5) + dtc * (1/5) =
        3/10 * rv + 3/10 * cc + 1/5 * dc + 1/5 * dtc := by ring
    have hspec : (DegradedMode.window (s.confidence_history ++
          [rv * (3/10) + cc * (3/10) + dc * (1/5) + dtc * (1/5)])).sum /
        ((DegradedMode.window (s.confidence_history ++
          [rv * (3/10) + cc * (3/10) + dc * (1/5) + dtc * (1/5)])).length : ℚ) =
        DegradedMode.specAvg s rv cc dc dtc := by
      rw [hoc, DegradedMode.window_eq_drop _ (by simp; omega)]
      simp [DegradedMode.specAvg]
    have hupd : (DegradedMode.update s rv cc dc dtc).2.mode =
        (DegradedMode.classify (DegradedMode.specAvg s rv cc dc dtc) rv cc dc dtc).mode := by
      rw [DegradedMode.update_def, hspec]
    rw [hupd]
    exact DegradedMode.classify_mode _ rv cc dc dtc
  · intro n hn
    obtain ⟨m, rfl⟩ : ∃ m, n = m + 1 := ⟨n - 1, by omega⟩
    have hval : (95/100 : ℚ) * (3/10) + (9/10) * (3/10) + (88/100) * (1/5) +
        (92/100) * (1/5) = 183/200 := by norm_num
    show ((DegradedMode.update (DegradedMode.feed DegradedMode.initState
        (95/100) (9/10) (88/100) (92/100) m).1 (95/100) (9/10) (88/100) (92/100)).2.mode = _) ∧
      ((DegradedMode.update (DegradedMode.feed DegradedMode.initState
        (95/100) (9/10) (88/100) (92/100) m).1 (95/100) (9/10) (88/100) (92/100)).2.p_miss < _)
    rw [DegradedMode.feed_hist, hval,
      DegradedMode.update_replicate _ (183/200) _ _ _ _ (by norm_num)]
    unfold DegradedMode.classify
    rw [if_pos (by norm_num)]
    exact ⟨rfl, by norm_num⟩
  · intro n hn
    obtain ⟨m, rfl⟩ : ∃ m, n = m + 1 := ⟨n - 1, by omega⟩
    have hval : (1/10 : ℚ) * (3/10) + (3/20) * (3/10) + (1/5) * (1/5) +
        (1/4) * (1/5) = 33/200 := by norm_num
    show ((DegradedMode.update (DegradedMode.feed DegradedMode.initState
        (1/10) (3/20) (1/5) (1/4) m).1 (1/10) (3/20) (1/5) (1/4)).2.mode = _) ∧
      ((DegradedMode.update (DegradedMode.feed DegradedMode.initState
        (1/10) (3/20) (1/5) (1/4) m).1 (1/10) (3/20) (1/5) (1/4)).2.recommendation = _)
    rw [DegradedMode.feed_hist, hval,
      DegradedMode.update_replicate _ (33/200) _ _ _ _ (by norm_num)]
    unfold DegradedMode.classify
    rw [if_neg (by norm_num), if_neg (by norm_num)]
    exact ⟨rfl, rfl⟩

/-- Witness for C5: the policy theorem applied at the fresh detector
(for the general part) and at n = 30 feeds for both scenarios. -/
theorem degraded_mode_detector_policy_witness :
    ((DegradedMode.update DegradedMode.initState (95/100) (9/10) (88/100) (92/100)).2.mode =
        DegradedMode.SystemMode.NOMINAL ↔
      4/5 ≤ DegradedMode.specAvg DegradedMode.initState (95/100) (9/10) (88/100) (92/100)) ∧
    (DegradedMode.feed DegradedMode.initState (95/100) (9/10) (88/100) (92/100) 30).2.mode =
      DegradedMode.SystemMode.NOMINAL ∧
    (DegradedMode.feed DegradedMode.initState (1/10) (3/20) (1/5) (1/4) 30).2.recommendation =
      "MANUAL_CONTROL_REQUIRED" :=
  ⟨(degraded_mode_detector_policy.1 DegradedMode.initState
      (95/100) (9/10) (88/100) (92/100) (by simp [DegradedMode.initState])).1,
   (degraded_mode_detector_policy.2.1 30 (by norm_num)).1,
   (degraded_mode_detector_policy.2.2 30 (by norm_num)).2⟩

/-- C2 (code evaluated at the failing input): a track that was
successfully associated this frame (assignment det 0 → track 0) ends
`process`'s steps 4+6 with `time_since_update = 1`, not 0 — and is
even flipped to GHOST — because `_manage_tracks` increments the
counter of every track, matched ones included. -/
theorem matched_track_counter_not_reset :
    ∃ t : StacCaps.Persistence.Track,
      StacCaps.Persistence.frameUpdate
        [(0, StacCaps.Persistence.Track.mk 0 StacCaps.Persistence.TrackState.ACTIVE
          StacCaps.Persistence.Category.PERSON none ⟨0, 0, 0⟩ none 7 3 [] (1/2) (1/2) (1/2))]
        [(0, 0)] 30 = [(0, t)] ∧
      t.time_since_update = 1 ∧ t.state = StacCaps.Persistence.TrackState.GHOST := by
  refine ⟨StacCaps.Persistence.Track.mk 0 StacCaps.Persistence.TrackState.GHOST
    StacCaps.Persistence.Category.PERSON none ⟨0, 0, 0⟩ none 7 1 [] (1/2) (1/2) (1/2),
    ?_, rfl, rfl⟩
  rfl

/-- The first-strict-min fold of `TrackMemory._evict` returns an
element of the candidate list whose quality_score is minimal over
it. -/
theorem Persistence.evict_fold_spec (cs : List (ℕ × Persistence.Track))
    (c : ℕ × Persistence.Track) :
    (cs.foldl (fun best p =>
        if p.2.quality_score < best.2.quality_score then p else best) c) ∈ c :: cs ∧
    ∀ p ∈ c :: cs,
      (cs.foldl (fun best p =>
        if p.2.quality_score < best.2.quality_score then p else best) c).2.quality_score ≤
      p.2.quality_score := by
  induction cs generalizing c with
  | nil =>
    refine ⟨List.mem_singleton.mpr rfl, ?_⟩
    intro p hp
    simp only [List.mem_singleton] at hp
    subst hp
    exact le_refl _
  | cons d ds ih =>
    obtain ⟨ihmem, ihmin⟩ := ih (if d.2.quality_score < c.2.quality_score then d else c)
    simp only [List.foldl_cons]
    constructor
    · rcases List.mem_cons.mp ihmem with h | h
      · rw [h]
        split_ifs
        · exact List.mem_cons_of_mem _ (List.mem_cons_self _ _)
        · exact List.mem_cons_self _ _
      · exact List.mem_cons_of_mem _ (List.mem_cons_of_mem _ h)
    · intro p hp
      rcases List.mem_cons.mp hp with h | h
      · subst h
        refine le_trans (ihmin _ (List.mem_cons_self _ _)) ?_
        split_ifs with hd
        · exact le_of_lt hd
        · exact le_refl _
      · rcases List.mem_cons.mp h with h2 | h2
        · subst h2
          refine le_trans (ihmin _ (List.mem_cons_self _ _)) ?_
          split_ifs with hd
          · exact le_refl _
          · exact le_of_not_lt hd
        · exact ihmin _ (List.mem_cons_of_mem _ h2)

/-- C7: with the cache at its 50-track capacity and a fresh track id,
`TrackMemory.put` evicts exactly one existing track before inserting:
a track of minimal quality_score among the 26 (= ⌊50/2⌋ + 1)
least-recently-used entries; every entry of the newer half survives,
and the cache is back at 50 tracks. -/
theorem track_memory_eviction_policy (m : Persistence.TrackMemory)
    (tr : Persistence.Track) (hsize : m.max_size = 50)
    (hlen : m.tracks.length = 50)
    (hnew : tr.track_id ∉ m.tracks.map Prod.fst) :
    ∃ victim ∈ m.tracks.take 26,
      (∀ p ∈ m.tracks.take 26, victim.2.quality_score ≤ p.2.quality_score) ∧
      (Persistence.put m tr).tracks =
        m.tracks.eraseP (fun p => p.1 == victim.1) ++ [(tr.track_id, tr)] ∧
      (Persistence.put m tr).tracks.length = 50 ∧
      (∀ p ∈ m.tracks.drop 26, p ∈ (Persistence.put m tr).tracks) := by
  obtain ⟨c, cs, hcands⟩ : ∃ c cs, m.tracks.take 26 = c :: cs := by
    cases h : m.tracks.take 26 with
    | nil =>
      exfalso
      have := congrArg List.length h
      rw [List.length_take, hlen] at this
      simp at this
    | cons c cs => exact ⟨c, cs, rfl⟩
  have hfold := Persistence.evict_fold_spec cs c
  set victim := cs.foldl (fun best p =>
    if p.2.quality_score < best.2.quality_score then p else best) c with hvic
  have hvmem : victim ∈ m.tracks.take 26 := by rw [hcands]; exact hfold.1
  have hIdEq : Persistence.evictId (m.tracks.take 26) = victim.1 := by
    rw [hcands]; rfl
  have hput : (Persistence.put m tr).tracks =
      Persistence.evict m.tracks ++ [(tr.track_id, tr)] := by
    unfold Persistence.put
    rw [if_neg (by simpa using hnew), if_pos (by rw [hsize, hlen])]
  have htne : m.tracks ≠ [] := by
    intro h; rw [h] at hlen; simp at hlen
  have hevict : Persistence.evict m.tracks =
      m.tracks.eraseP (fun p => p.1 == victim.1) := by
    unfold Persistence.evict
    rw [if_neg htne, hlen]
    norm_num
    rw [hIdEq]
  have hsplit : m.tracks = m.tracks.take 26 ++ m.tracks.drop 26 :=
    (List.take_append_drop 26 m.tracks).symm
  have herase : m.tracks.eraseP (fun p => p.1 == victim.1) =
      (m.tracks.take 26).eraseP (fun p => p.1 == victim.1) ++ m.tracks.drop 26 := by
    conv_lhs => rw [hsplit]
    exact List.eraseP_append_left (by simp) _ hvmem
  refine ⟨victim, hvmem, by rw [hcands]; exact hfold.2, ?_, ?_, ?_⟩
  · rw [hput, hevict]
  · rw [hput, hevict, List.length_append]
    have h1 : (m.tracks.eraseP (fun p => p.1 == victim.1)).length + 1 = 50 := by
      rw [List.length_eraseP_add_one (l := m.tracks) (a := victim)
        (List.mem_of_mem_take hvmem) (by simp), hlen]
    simp only [List.length_singleton]
    omega
  · intro p hp
    rw [hput, hevict, herase]
    exact List.mem_append_left _ (List.mem_append_right _ hp)

/-- Witness for C7: a concrete 50-track memory (ids 0..49, strictly
increasing quality
scores) and a fresh track with id 50. -/
theorem track_memory_eviction_policy_witness :
    ∃ victim ∈ (Persistence.TrackMemory.mk 50
      ((List.range 50).map (fun i => (i, Persistence.Track.mk i
        Persistence.TrackState.ACTIVE Persistence.Category.UNKNOWN none
        ⟨0, 0, 0⟩ none 0 0 [] ((i : ℚ) / 100) 0 0)))).tracks.take 26,
      (∀ p ∈ (Persistence.TrackMemory.mk 50
        ((List.range 50).map (fun i => (i, Persistence.Track.mk i
          Persistence.TrackState.ACTIVE Persistence.Category.UNKNOWN none
          ⟨0, 0, 0⟩ none 0 0 [] ((i : ℚ) / 100) 0 0)))).tracks.take 26,
        victim.2.quality_score ≤ p.2.quality_score) ∧
      (Persistence.put (Persistence.TrackMemory.mk 50
        ((List.range 50).map (fun i => (i, Persistence.Track.mk i
          Persistence.TrackState.ACTIVE Persistence.Category.UNKNOWN none
          ⟨0, 0, 0⟩ none 0 0 [] ((i : ℚ) / 100) 0 0))))
        (Persistence.Track.mk 50 Persistence.TrackState.TENTATIVE
          Persistence.Category.UNKNOWN none ⟨0, 0, 0⟩ none 0 0 [] 1 0 0)).tracks =
        (Persistence.TrackMemory.mk 50
          ((List.range 50).map (fun i => (i, Persistence.Track.mk i
            Persistence.TrackState.ACTIVE Persistence.Category.UNKNOWN none
            ⟨0, 0, 0⟩ none 0 0 [] ((i : ℚ) / 100) 0 0)))).tracks.eraseP
          (fun p => p.1 == victim.1) ++
        [(50, Persistence.Track.mk 50 Persistence.TrackState.TENTATIVE
          Persistence.Category.UNKNOWN none ⟨0, 0, 0⟩ none 0 0 [] 1 0 0)] ∧
      (Persistence.put (Persistence.TrackMemory.mk 50
        ((List.range 50).map (fun i => (i, Persistence.Track.mk i
          Persistence.TrackState.ACTIVE Persistence.Category.UNKNOWN none
          ⟨0, 0, 0⟩ none 0 0 [] ((i : ℚ) / 100) 0 0))))
        (Persistence.Track.mk 50 Persistence.TrackState.TENTATIVE
          Persistence.Category.UNKNOWN none ⟨0, 0, 0⟩ none 0 0 [] 1 0 0)).tracks.length = 50 ∧
      (∀ p ∈ (Persistence.TrackMemory.mk 50
        ((List.range 50).map (fun i => (i, Persistence.Track.mk i
          Persistence.TrackState.ACTIVE Persistence.Category.UNKNOWN none
          ⟨0, 0, 0⟩ none 0 0 [] ((i : ℚ) / 100) 0 0)))).tracks.drop 26,
        p ∈ (Persistence.put (Persistence.TrackMemory.mk 50
          ((List.range 50).map (fun i => (i, Persistence.Track.mk i
            Persistence.TrackState.ACTIVE Persistence.Category.UNKNOWN none
            ⟨0, 0, 0⟩ none 0 0 [] ((i : ℚ) / 100) 0 0))))
          (Persistence.Track.mk 50 Persistence.TrackState.TENTATIVE
            Persistence.Category.UNKNOWN none ⟨0, 0, 0⟩ none 0 0 [] 1 0 0)).tracks) :=
  track_memory_eviction_policy _ _ rfl (by simp)
    (by
      intro hmem
      simp only [List.map_map, List.mem_map, Function.comp] at hmem
      obtain ⟨i, hi, heq⟩ := hmem
      rw [List.mem_range] at hi
      omega)

/-- Shape of the stubbed IoU matrix. -/
theorem Association.compute_iou_matrix_rows {α β : Type} (rand : ℕ → ℕ → ℝ)
    (a : List α) (b : List β) :
    (Association.compute_iou_matrix rand a b).rows = a.length := by
  unfold Association.compute_iou_matrix
  split <;> rfl

/-- Shape of the stubbed IoU matrix. -/
theorem Association.compute_iou_matrix_cols {α β : Type} (rand : ℕ → ℕ → ℝ)
    (a : List α) (b : List β) :
    (Association.compute_iou_matrix rand a b).cols = b.length := by
  unfold Association.compute_iou_matrix
  split <;> rfl

/-- The running minimum fold (`np.min`) bounds every element of
`x :: l` from below. -/
theorem Behavior.foldl_min_le (l : List ℚ) :
    ∀ x a, a ∈ x :: l → l.foldl min x ≤ a := by
  induction l with
  | nil =>
    intro x a ha
    simp only [List.mem_singleton] at ha
    subst ha
    exact le_refl _
  | cons y ys ih =>
    intro x a ha
    rw [List.foldl_cons]
    rcases List.mem_cons.mp ha with h | h
    · subst h
      exact le_trans (ih (min a y) _ (List.mem_cons_self _ _)) (min_le_left _ _)
    · rcases List.mem_cons.mp h with h2 | h2
      · subst h2
        exact le_trans (ih (min x a) _ (List.mem_cons_self _ _)) (min_le_right _ _)
      · exact ih (min x y) a (List.mem_cons_of_mem _ h2)

/-- The running maximum fold (`np.max`) bounds every element of
`x :: l` from above. -/
theorem Behavior.le_foldl_max (l : List ℚ) :
    ∀ x a, a ∈ x :: l → a ≤ l.foldl max x := by
  induction l with
  | nil =>
    intro x a ha
    simp only [List.mem_singleton] at ha
    subst ha
    exact le_refl _
  | cons y ys ih =>
    intro x a ha
    rw [List.foldl_cons]
    rcases List.mem_cons.mp ha with h | h
    · subst h
      exact le_trans (le_max_left _ _) (ih (max a y) _ (List.mem_cons_self _ _))
    · rcases List.mem_cons.mp h with h2 | h2
      · subst h2
        exact le_trans (le_max_right _ _) (ih (max x a) _ (List.mem_cons_self _ _))
      · exact ih (max x y) a (List.mem_cons_of_mem _ h2)

/-- For a nonempty sample list the minimum is at most the mean. -/
theorem Behavior.listMin_le_listMean (x : ℚ) (xs : List ℚ) :
    listMin (x :: xs) ≤ listMean (x :: xs) := by
  have hlen : (0 : ℚ) < ((x :: xs).length : ℚ) := by
    simp only [List.length_cons]
    push_cast
    positivity
  rw [listMin, listMean, le_div_iff₀ hlen]
  have hb : ∀ a ∈ x :: xs, xs.foldl min x ≤ a := Behavior.foldl_min_le xs x
  calc xs.foldl min x * ((x :: xs).length : ℚ)
      = (x :: xs).length • xs.foldl min x := by
        rw [nsmul_eq_mul]; ring
    _ ≤ (x :: xs).sum := List.card_nsmul_le_sum _ _ hb

/-- For a nonempty sample list the mean is at most the maximum. -/
theorem Behavior.listMean_le_listMax (x : ℚ) (xs : List ℚ) :
    listMean (x :: xs) ≤ listMax (x :: xs) := by
  have hlen : (0 : ℚ) < ((x :: xs).length : ℚ) := by
    simp only [List.length_cons]
    push_cast
    positivity
  rw [listMax, listMean, div_le_iff₀ hlen]
  have hb : ∀ a ∈ x :: xs, a ≤ xs.foldl max x := Behavior.le_foldl_max xs x
  calc (x :: xs).sum ≤ (x :: xs).length • xs.foldl max x :=
        List.sum_le_card_nsmul _ _ hb
    _ = xs.foldl max x * ((x :: xs).length : ℚ) := by rw [nsmul_eq_mul]; ring

/-- C6: every TTCResult actually returned by `compute_ttc_v2` (for
any train state, prediction list and track cap) satisfies
min ≤ mean ≤ max (with inf ≤ inf) and has confidence in
[0.3, 1.0]. -/
theorem ttc_result_invariants (train_state : Option Behavior.TrainState)
    (predictions : List Behavior.Prediction) (max_tracks : ℕ)
    (r : Behavior.TTCResult)
    (h : Behavior.compute_ttc_v2 train_state predictions max_tracks = some r) :
    fltLe r.min r.mean ∧ fltLe r.mean r.max ∧
    3/10 ≤ r.confidence ∧ r.confidence ≤ 1 := by
  simp only [Behavior.compute_ttc_v2] at h
  split_ifs at h with h1 h2
  · obtain rfl : Behavior.infTTC = r := Option.some.inj h
    exact ⟨trivial, trivial, by show (3:ℚ)/10 ≤ 1; norm_num, le_refl 1⟩
  · rcases hscan : Behavior.scanPreds (Behavior.trainPosOf train_state)
        (Behavior.trainVelOf train_state)
        ((predictions.mergeSort (fun a b =>
          decide (Behavior.nominalKeySq (Behavior.trainPosOf train_state) a ≤
            Behavior.nominalKeySq (Behavior.trainPosOf train_state) b))).take max_tracks)
        [] with t | samples
    · rw [hscan] at h
      obtain rfl : (⟨some t, some t, some t, 99/100⟩ : Behavior.TTCResult) = r :=
        Option.some.inj h
      exact ⟨le_refl t, le_refl t, by norm_num, by norm_num⟩
    · rw [hscan] at h
      cases samples with
      | nil =>
        obtain rfl : Behavior.infTTC = r := Option.some.inj h
        exact ⟨trivial, trivial, by show (3:ℚ)/10 ≤ 1; norm_num, le_refl 1⟩
      | cons s ss =>
        obtain rfl : (⟨some (listMin (s :: ss)), some (listMean (s :: ss)),
            some (listMax (s :: ss)),
            min (max (1 - (listMax (s :: ss) - listMin (s :: ss)) / 10) (3/10)) 1⟩ :
            Behavior.TTCResult) = r := Option.some.inj h
        exact ⟨Behavior.listMin_le_listMean s ss, Behavior.listMean_le_listMax s ss,
          le_min (le_max_right _ _) (by norm_num), min_le_right _ _⟩

/-- Witness for C6: the theorem applied at the empty prediction list,
whose result is the conservative `{inf, inf, inf, 1.0}`. -/
theorem ttc_result_invariants_witness :
    fltLe Behavior.infTTC.min Behavior.infTTC.mean ∧
    fltLe Behavior.infTTC.mean Behavior.infTTC.max ∧
    3/10 ≤ Behavior.infTTC.confidence ∧ Behavior.infTTC.confidence ≤ 1 :=
  ttc_result_invariants none [] 30 Behavior.infTTC rfl

/-- A trajectory whose every point stays outside the margin
contributes no candidate and no early exit. -/
theorem Behavior.scanTraj_no_hit (trainPos trainVel : V3) (margin : ℚ)
    (pts : List Behavior.TrajPoint)
    (h : ∀ pt ∈ pts,
      ¬((pt.position.sub (trainPos.add (V3.smul pt.timestamp trainVel))).sqNorm <
        margin ^ 2)) :
    ∀ acc, Behavior.scanTraj trainPos trainVel margin pts acc = Sum.inr acc := by
  induction pts with
  | nil => intro acc; rfl
  | cons pt rest ih =>
    intro acc
    rw [Behavior.scanTraj, if_neg (h pt (List.mem_cons_self _ _))]
    exact ih (fun q hq => h q (List.mem_cons_of_mem _ hq)) acc

/-- A prediction with no in-margin sample point contributes nothing in
any of its three scenarios. -/
theorem Behavior.scanPred_no_hit (trainPos trainVel : V3)
    (p : Behavior.Prediction)
    (h : Behavior.noCandidate trainPos trainVel p) :
    ∀ acc, Behavior.scanPred trainPos trainVel p acc = Sum.inr acc := by
  intro acc
  have h1 := Behavior.scanTraj_no_hit trainPos trainVel
    (Behavior.get_safety_margin (some p.intent)) p.trajectories.optimistic
    (fun pt hpt => h pt (List.mem_append_left _ (List.mem_append_left _ hpt))) acc
  have h2 := Behavior.scanTraj_no_hit trainPos trainVel
    (Behavior.get_safety_margin (some p.intent)) p.trajectories.nominal
    (fun pt hpt => h pt (List.mem_append_left _ (List.mem_append_right _ hpt))) acc
  have h3 := Behavior.scanTraj_no_hit trainPos trainVel
    (Behavior.get_safety_margin (some p.intent)) p.trajectories.pessimistic
    (fun pt hpt => h pt (List.mem_append_right _ hpt)) acc
  simp only [Behavior.scanPred, h1, h2, h3]

/-- A prediction list with no in-margin sample point anywhere yields
no candidates. -/
theorem Behavior.scanPreds_no_hit (trainPos trainVel : V3)
    (ps : List Behavior.Prediction)
    (h : ∀ p ∈ ps, Behavior.noCandidate trainPos trainVel p) :
    ∀ acc, Behavior.scanPreds trainPos trainVel ps acc = Sum.inr acc := by
  induction ps with
  | nil => intro acc; rfl
  | cons p rest ih =>
    intro acc
    rw [Behavior.scanPreds,
      Behavior.scanPred_no_hit _ _ _ (h p (List.mem_cons_self _ _)) acc]
    exact ih (fun q hq => h q (List.mem_cons_of_mem _ hq)) acc

/-- C9 (code evaluated at the failing input in its middle conjunct):
`compute_ttc_v2` returns the conservative `{inf, inf, inf, 1.0}` for
an empty prediction list, and for any predictions with nonempty
nominal trajectories none of whose sample points falls inside its
margin; but a prediction whose nominal list is present and empty makes
the proximity sort key raise IndexError instead of returning the
conservative result. -/
theorem compute_ttc_conservative_default :
    (∀ (train_state : Option Behavior.TrainState) (n : ℕ),
      Behavior.compute_ttc_v2 train_state [] n = some Behavior.infTTC) ∧
    (Behavior.compute_ttc_v2 none
      [Behavior.Prediction.mk 1 (Behavior.Trajectories.mk [] [] [])
        (Behavior.Intent.mk "STATIC" 0 0 0 false ⟨0, 0, 0, 0⟩) 0 none 0 false]
      30 = none) ∧
    (∀ (train_state : Option Behavior.TrainState)
       (predictions : List Behavior.Prediction) (n : ℕ),
      (∀ p ∈ predictions, p.trajectories.nominal ≠ []) →
      (∀ p ∈ predictions, Behavior.noCandidate (Behavior.trainPosOf train_state)
        (Behavior.trainVelOf train_state) p) →
      Behavior.compute_ttc_v2 train_state predictions n = some Behavior.infTTC) := by
  refine ⟨fun ts n => rfl, rfl, ?_⟩
  intro ts preds n hnom hnc
  by_cases hpe : preds = []
  · subst hpe; rfl
  · simp only [Behavior.compute_ttc_v2]
    have hne : ¬(preds.any (fun p => p.trajectories.nominal.isEmpty)) = true := by
      simp only [List.any_eq_true]
      rintro ⟨p, hp, hemp⟩
      exact hnom p hp (List.isEmpty_iff.mp hemp)
    rw [if_neg hpe, if_neg hne,
      Behavior.scanPreds_no_hit _ _ _
        (fun q hq => hnc q (List.mem_mergeSort.1 (List.mem_of_mem_take hq))) []]

/-- Witness for C9: the hypothesis-carrying conjunct applied at a
single far-away prediction (nominal point 1000 m ahead, STATIC
margin 5 m). -/
theorem compute_ttc_conservative_default_witness :
    Behavior.compute_ttc_v2 none
      [Behavior.Prediction.mk 1
        (Behavior.Trajectories.mk []
          [Behavior.TrajPoint.mk ⟨0, 0, 1000⟩ 1 (1/10)] [])
        (Behavior.Intent.mk "STATIC" 0 0 0 false ⟨0, 0, 0, 0⟩) 0 none 0 false]
      30 = some Behavior.infTTC :=
  compute_ttc_conservative_default.2.2 none _ 30
    (by
      intro p hp
      simp only [List.mem_singleton] at hp
      subst hp
      simp)
    (by
      intro p hp
      simp only [List.mem_singleton] at hp
      subst hp
      intro pt hpt
      simp only [List.append_nil, List.nil_append, List.mem_singleton] at hpt
      subst hpt
      norm_num [StacCaps.V3.sqNorm, StacCaps.V3.sub, StacCaps.V3.add,
        StacCaps.V3.smul, Behavior.get_safety_margin, Behavior.trainPosOf,
        Behavior.trainVelOf])

/-- C3 counterexample: in the spec's scenario — train at the origin
moving (0,0,10) m/s, one STATIC-intent prediction whose trajectory
has its (single) sample at position (0,0,5) at timestamp 1.0 s,
margin 5 m — `compute_ttc_v2` does NOT return min ≈ 0.5 s with
confidence 0.99: it returns `{inf, inf, inf, 1.0}` (the sample sits at
distance exactly 5 m, which is not strictly inside the margin, and
candidate times can only be sample timestamps, so no 0.5 s candidate
can exist). -/
theorem ttc_scenario_counterexample :
    Behavior.compute_ttc_v2
      (some (Behavior.TrainState.mk ⟨0, 0, 0⟩ ⟨0, 0, 10⟩))
      [Behavior.Prediction.mk 1
        (Behavior.Trajectories.mk []
          [Behavior.TrajPoint.mk ⟨0, 0, 5⟩ 1 (1/10)] [])
        (Behavior.Intent.mk "STATIC" 0 (1/2) 1 false ⟨1, 0, 0, 0⟩) 0 none 0 false]
      30 = some Behavior.infTTC ∧
    Behavior.infTTC.min = none ∧
    Behavior.infTTC.confidence ≠ 99/100 := by
  refine ⟨?_, rfl, by show (1:ℚ) ≠ 99/100; norm_num⟩
  simp only [Behavior.compute_ttc_v2]
  rw [if_neg (by simp), if_neg (by simp),
    Behavior.scanPreds_no_hit _ _ _ (fun q hq => by
      have hq2 := List.mem_mergeSort.1 (List.mem_of_mem_take hq)
      simp only [List.mem_singleton] at hq2
      subst hq2
      intro pt hpt
      simp only [List.append_nil, List.nil_append, List.mem_singleton] at hpt
      subst hpt
      norm_num [StacCaps.V3.sqNorm, StacCaps.V3.sub, StacCaps.V3.add,
        StacCaps.V3.smul, Behavior.get_safety_margin, Behavior.trainPosOf,
        Behavior.trainVelOf]) []]

/-- C3 amended: on the spec scenario's exact input the computed
result is the maximally conservative `{inf, inf, inf, 1.0}`. -/
theorem ttc_scenario_actual_result :
    Behavior.compute_ttc_v2
      (some (Behavior.TrainState.mk ⟨0, 0, 0⟩ ⟨0, 0, 10⟩))
      [Behavior.Prediction.mk 1
        (Behavior.Trajectories.mk []
          [Behavior.TrajPoint.mk ⟨0, 0, 5⟩ 1 (1/10)] [])
        (Behavior.Intent.mk "STATIC" 0 (1/2) 1 false ⟨1, 0, 0, 0⟩) 0 none 0 false]
      30 = some (Behavior.TTCResult.mk none none none 1) := by
  simp only [Behavior.compute_ttc_v2]
  rw [if_neg (by simp), if_neg (by simp),
    Behavior.scanPreds_no_hit _ _ _ (fun q hq => by
      have hq2 := List.mem_mergeSort.1 (List.mem_of_mem_take hq)
      simp only [List.mem_singleton] at hq2
      subst hq2
      intro pt hpt
      simp only [List.append_nil, List.nil_append, List.mem_singleton] at hpt
      subst hpt
      norm_num [StacCaps.V3.sqNorm, StacCaps.V3.sub, StacCaps.V3.add,
        StacCaps.V3.smul, Behavior.get_safety_margin, Behavior.trainPosOf,
        Behavior.trainVelOf]) []]
  rfl

/-- The kinematic predictor reads only `bbox_3d`, `velocity` and
`acceleration` of a track. -/
theorem Behavior.predict_kinematic_congr (a b : Persistence.Track) (hs : List ℚ)
    (h1 : a.bbox_3d = b.bbox_3d) (h2 : a.velocity = b.velocity)
    (h3 : a.acceleration = b.acceleration) :
    Behavior.predict_kinematic_v2 a hs = Behavior.predict_kinematic_v2 b hs := by
  unfold Behavior.predict_kinematic_v2
  rw [h1, h2, h3]

/-- One per-track step of `process` is unchanged when the track's
`category` and `quality_score` change. -/
theorem Behavior.buildStep_congr (ctx : String)
    (acc : List (ℕ × List Behavior.Intent) × List Behavior.Prediction)
    (a b : Persistence.Track) (h : Behavior.tracksAgreeExceptRisk a b) :
    Behavior.buildStep ctx acc a = Behavior.buildStep ctx acc b := by
  obtain ⟨hid, -, hbb, hv, hacc, -, -, -, -, -⟩ := h
  unfold Behavior.buildStep
  rw [Behavior.predict_kinematic_congr a b _ hbb hv hacc, hid, hv]

/-- `tracksAgreeExceptRisk` is reflexive. -/
theorem Behavior.tracksAgreeExceptRisk_refl (a : Persistence.Track) :
    Behavior.tracksAgreeExceptRisk a a :=
  ⟨rfl, rfl, rfl, rfl, rfl, rfl, rfl, rfl, rfl, rfl⟩

/-- The prediction-building fold is unchanged when non-risk fields are
kept fixed along the track list. -/
theorem Behavior.buildPredictions_congr (l l' : List Persistence.Track)
    (h : List.Forall₂ Behavior.tracksAgreeExceptRisk l l') (ctx : String) :
    ∀ init, l.foldl (Behavior.buildStep ctx) init =
      l'.foldl (Behavior.buildStep ctx) init := by
  induction h with
  | nil => intro init; rfl
  | cons hab htail ih =>
    intro init
    rw [List.foldl_cons, List.foldl_cons, Behavior.buildStep_congr _ _ _ _ hab]
    exact ih _

/-- Every context prior table has strictly positive entries. -/
theorem Behavior.get_context_priors_pos (scene_context : String) :
    (Behavior.get_context_priors scene_context).allPos := by
  unfold Behavior.get_context_priors Behavior.IntentProbs.allPos
  split_ifs <;> norm_num

/-- `stepStatic` preserves positivity of all four entries. -/
theorem Behavior.stepStatic_pos (p : Behavior.IntentProbs) (v : ℚ)
    (h : p.allPos) : (Behavior.stepStatic p v).allPos := by
  obtain ⟨hs, hl, ha, hc⟩ := h
  unfold Behavior.stepStatic Behavior.IntentProbs.allPos
  split_ifs <;> refine ⟨?_, ?_, ?_, ?_⟩ <;> (try simp) <;> linarith

/-- `stepApproach` preserves positivity of all four entries. -/
theorem Behavior.stepApproach_pos (p : Behavior.IntentProbs) (mt : ℚ)
    (h : p.allPos) : (Behavior.stepApproach p mt).allPos := by
  obtain ⟨hs, hl, ha, hc⟩ := h
  unfold Behavior.stepApproach Behavior.IntentProbs.allPos
  split_ifs <;> refine ⟨?_, ?_, ?_, ?_⟩ <;> (try simp) <;> linarith

/-- `stepLeaving` preserves positivity of all four entries. -/
theorem Behavior.stepLeaving_pos (p : Behavior.IntentProbs) (mt : ℚ)
    (h : p.allPos) : (Behavior.stepLeaving p mt).allPos := by
  obtain ⟨hs, hl, ha, hc⟩ := h
  unfold Behavior.stepLeaving Behavior.IntentProbs.allPos
  split_ifs <;> refine ⟨?_, ?_, ?_, ?_⟩ <;> (try simp) <;> linarith

/-- `stepCrossing` preserves positivity of all four entries. -/
theorem Behavior.stepCrossing_pos (p : Behavior.IntentProbs) (v f : ℚ)
    (h : p.allPos) : (Behavior.stepCrossing p v f).allPos := by
  obtain ⟨hs, hl, ha, hc⟩ := h
  unfold Behavior.stepCrossing Behavior.IntentProbs.allPos
  split_ifs <;> refine ⟨?_, ?_, ?_, ?_⟩ <;> (try simp) <;> linarith

/-- Normalizing a posterior with positive entries yields a posterior
summing to exactly 1. -/
theorem Behavior.normalizeProbs_total (p : Behavior.IntentProbs)
    (h : p.allPos) : (Behavior.normalizeProbs p).total = 1 := by
  obtain ⟨hs, hl, ha, hc⟩ := h
  have ht : p.total ≠ 0 := by
    unfold Behavior.IntentProbs.total
    linarith
  unfold Behavior.normalizeProbs Behavior.IntentProbs.total at ht ⊢
  field_simp

/-- The posteriors produced by `update_bayesian` from any context
prior table sum to exactly 1. -/
theorem Behavior.update_bayesian_total (priors : Behavior.IntentProbs)
    (velocitySq facing moving_towards distracted : ℚ)
    (h : priors.allPos) :
    (Behavior.update_bayesian priors velocitySq facing moving_towards
      distracted).total = 1 :=
  Behavior.normalizeProbs_total _
    (Behavior.stepCrossing_pos _ _ _
      (Behavior.stepLeaving_pos _ _
        (Behavior.stepApproach_pos _ _
          (Behavior.stepStatic_pos _ _ h))))

/-- C8: the Intent returned by the intent inference — Bayesian
reweighting of the context priors followed by α = 0.7 temporal
smoothing against the previous intent — has probs summing to exactly
1, whenever every intent in the history does; stated for the core at
arbitrary pose-derived observation scalars, and for `infer_intent_v2`
(its `smpl_params = None` instantiation). -/
theorem intent_posterior_sums_to_one :
    (∀ (velocity : V3) (facing distraction_prob awareness_prob : ℚ)
       (context : String) (intent_history : List Behavior.Intent),
      (∀ i ∈ intent_history, i.probs.total = 1) →
      (Behavior.infer_intent_core velocity facing distraction_prob awareness_prob
        context intent_history).probs.total = 1) ∧
    (∀ (velocity : V3) (context : String) (intent_history : List Behavior.Intent),
      (∀ i ∈ intent_history, i.probs.total = 1) →
      (Behavior.infer_intent_v2 velocity context intent_history).probs.total = 1) := by
  have hcore : ∀ (velocity : V3) (facing distraction_prob awareness_prob : ℚ)
      (context : String) (intent_history : List Behavior.Intent),
      (∀ i ∈ intent_history, i.probs.total = 1) →
      (Behavior.infer_intent_core velocity facing distraction_prob awareness_prob
        context intent_history).probs.total = 1 := by
    intro velocity facing dp ap context history hhist
    have hpost : (Behavior.update_bayesian (Behavior.get_context_priors context)
        velocity.sqNorm facing (Behavior.is_moving_towards_track velocity)
        dp).total = 1 :=
      Behavior.update_bayesian_total _ _ _ _ _
        (Behavior.get_context_priors_pos context)
    unfold Behavior.infer_intent_core Behavior.smooth_intent
    cases hL : history.getLast? with
    | none => exact hpost
    | some previous =>
      have hprev : previous.probs.total = 1 :=
        hhist previous (List.mem_of_mem_getLast? hL)
      unfold Behavior.IntentProbs.total at hpost hprev ⊢
      simp only []
      linarith
  exact ⟨hcore, fun v c hi hh => hcore v (1/2) (3/10) (1/2) c hi hh⟩

/-- Witness for C8: the theorem applied at a stationary track in an
OPEN_TRACK context with empty history. -/
theorem intent_posterior_sums_to_one_witness :
    (Behavior.infer_intent_v2 ⟨0, 0, 0⟩ "OPEN_TRACK" []).probs.total = 1 :=
  intent_posterior_sums_to_one.2 ⟨0, 0, 0⟩ "OPEN_TRACK" [] (by simp)

/-- Evaluation of the intent inference at a stationary track in an
OPEN_TRACK context with empty history. -/
theorem Behavior.infer_intent_demo :
    Behavior.infer_intent_v2 ⟨0, 0, 0⟩ "OPEN_TRACK" [] = demoIntent := by
  have hpri : Behavior.get_context_priors "OPEN_TRACK" =
      ⟨2/5, 3/10, 1/5, 1/10⟩ := by
    simp [Behavior.get_context_priors]
  norm_num [Behavior.infer_intent_v2, Behavior.infer_intent_core, hpri,
    StacCaps.V3.sqNorm, Behavior.is_moving_towards_track, Behavior.update_bayesian,
    Behavior.stepStatic, Behavior.stepApproach, Behavior.stepLeaving,
    Behavior.stepCrossing, Behavior.normalizeProbs, Behavior.IntentProbs.total,
    Behavior.argmaxState, Behavior.IntentProbs.get, Behavior.smooth_intent,
    demoIntent]

/-- Evaluation of the kinematic predictor at demo track 0. -/
theorem Behavior.predict_demo0 :
    Behavior.predict_kinematic_v2 demoTrack0 Behavior.engineHorizons = demoTraj := by
  norm_num [Behavior.predict_kinematic_v2, Behavior.engineHorizons, demoTrack0,
    demoTraj]

/-- Evaluation of the kinematic predictor at demo track 1. -/
theorem Behavior.predict_demo1 :
    Behavior.predict_kinematic_v2 demoTrack1 Behavior.engineHorizons = demoTraj := by
  norm_num [Behavior.predict_kinematic_v2, Behavior.engineHorizons, demoTrack1,
    demoTraj]

/-- The per-track loop of `process` on the two demo tracks. -/
theorem Behavior.buildPredictions_demo :
    Behavior.buildPredictions [] [demoTrack0, demoTrack1] "OPEN_TRACK" =
      ([(0, [demoIntent]), (1, [demoIntent])], [demoPred0, demoPred1]) := by
  unfold Behavior.buildPredictions
  rw [List.foldl_cons, List.foldl_cons, List.foldl_nil]
  have hs0 : Behavior.buildStep "OPEN_TRACK" ([], []) demoTrack0 =
      ([(0, [demoIntent])], [demoPred0]) := by
    unfold Behavior.buildStep
    rw [show demoTrack0.velocity = (⟨0, 0, 0⟩ : V3) from rfl,
      show demoTrack0.track_id = 0 from rfl, Behavior.predict_demo0]
    simp [Behavior.lookupKey, Behavior.setKey, Behavior.lastN,
      Behavior.infer_intent_demo, demoPred0]
  rw [hs0]
  unfold Behavior.buildStep
  rw [show demoTrack1.velocity = (⟨0, 0, 0⟩ : V3) from rfl,
    show demoTrack1.track_id = 1 from rfl, Behavior.predict_demo1]
  simp [Behavior.lookupKey, Behavior.setKey, Behavior.lastN,
    Behavior.infer_intent_demo, demoPred1]

/-- No sample point of a demo prediction comes near the margin: every
point is at least 850 m from the train's predicted position. -/
theorem Behavior.demoPred_noCandidate :
    Behavior.noCandidate (Behavior.trainPosOf none) (Behavior.trainVelOf none)
      demoPred0 := by
  intro pt hpt
  simp only [demoPred0, demoTraj, List.cons_append, List.nil_append,
    List.mem_cons, List.not_mem_nil, or_false] at hpt
  rcases hpt with rfl | rfl | rfl | rfl | rfl | rfl | rfl | rfl | rfl | rfl |
    rfl | rfl | rfl | rfl | rfl <;>
    norm_num [StacCaps.V3.sqNorm, StacCaps.V3.sub, StacCaps.V3.add,
      StacCaps.V3.smul, Behavior.get_safety_margin, Behavior.trainPosOf,
      Behavior.trainVelOf, demoPred0, demoIntent]

/-- TTC on the demo predictions: nothing within margin, so the
conservative result. -/
theorem Behavior.ttc_demo :
    Behavior.compute_ttc_v2 none [demoPred0, demoPred1] 30 =
      some Behavior.infTTC := by
  simp only [Behavior.compute_ttc_v2]
  rw [if_neg (by simp), if_neg (by simp [demoPred0, demoPred1, demoTraj]),
    Behavior.scanPreds_no_hit _ _ _ (fun q hq => by
      have hq2 := List.mem_mergeSort.1 (List.mem_of_mem_take hq)
      simp only [List.mem_cons, List.not_mem_nil, or_false] at hq2
      rcases hq2 with rfl | rfl
      · exact Behavior.demoPred_noCandidate
      · exact fun pt hpt => Behavior.demoPred_noCandidate pt hpt) []]

/-- C10: the risk score `Engine3Behavior.process` assigns to every
prediction is computed from the first track of the input list, not
from the track whose id the prediction carries.  First conjunct:
changing `category` and `quality_score` of every non-first track
changes nothing in the output.  Remaining conjuncts: on two tracks
that differ in category (PERSON vs KNOWN) and quality (0.8 vs 0.4),
both predictions receive risk 0.2 — exactly the value of the first
track's factors — while the second track's own factors would give
0.23. -/
theorem risk_scores_use_first_track :
    (∀ (st : Behavior.EngineState) (t0 : Persistence.Track)
       (rest rest' : List Persistence.Track)
       (train_state : Option Behavior.TrainState) (ctx : String),
      List.Forall₂ Behavior.tracksAgreeExceptRisk rest rest' →
      Behavior.process st (t0 :: rest) train_state ctx =
        Behavior.process st (t0 :: rest') train_state ctx) ∧
    (Behavior.process Behavior.initEngine [demoTrack0, demoTrack1] none
        "OPEN_TRACK").map (fun r => r.2.risk_scores) =
      some [(0, 1/5), (1, 1/5)] ∧
    Behavior.compute_risk_score_v2 (some demoTrack0) (some demoIntent)
      (some Behavior.infTTC) none = 1/5 ∧
    Behavior.compute_risk_score_v2 (some demoTrack1) (some demoIntent)
      (some Behavior.infTTC) none = 23/100 ∧
    ((1/5 : ℚ) ≠ 23/100) := by
  refine ⟨?_, ?_, ?_, ?_, by norm_num⟩
  · intro st t0 rest rest' train_state ctx h
    have hb : Behavior.buildPredictions st.prev_intents (t0 :: rest) ctx =
        Behavior.buildPredictions st.prev_intents (t0 :: rest') ctx := by
      unfold Behavior.buildPredictions
      exact Behavior.buildPredictions_congr _ _
        (List.Forall₂.cons (Behavior.tracksAgreeExceptRisk_refl t0) h) ctx _
    simp only [Behavior.process, hb, List.head?_cons]
  · simp only [Behavior.process, Behavior.initEngine,
      Behavior.buildPredictions_demo, Behavior.ttc_demo, List.head?_cons]
    simp only [Behavior.assignRisks, List.foldl_cons, List.foldl_nil,
      Behavior.lookupKey, Behavior.setKey]
    norm_num [Behavior.compute_risk_score_v2, demoPred0, demoPred1, demoIntent,
      demoTrack0, Persistence.Category.value, Behavior.infTTC]
  · norm_num [Behavior.compute_risk_score_v2, demoIntent, demoTrack0,
      Persistence.Category.value, Behavior.infTTC]
  · have hs : (("KNOWN" : String) = "PERSON") = False := by simp
    norm_num [Behavior.compute_risk_score_v2, demoIntent, demoTrack1,
      Persistence.Category.value, Behavior.infTTC, hs]

/-- Witness for C10: the invariance conjunct applied at the two demo
tracks (the second track's category/quality changed from the first's),
discharging the agreement hypothesis. -/
theorem risk_scores_use_first_track_witness :
    Behavior.process Behavior.initEngine [demoTrack0, demoTrack1] none
      "OPEN_TRACK" =
    Behavior.process Behavior.initEngine [demoTrack0,
      Persistence.Track.mk 1 Persistence.TrackState.ACTIVE
        Persistence.Category.PERSON
        (some (Persistence.BBox3D.mk 0 0 1000 1 2 1)) ⟨0, 0, 0⟩ none 10 0 []
        (99/100) (1/2) (3/5)] none "OPEN_TRACK" :=
  risk_scores_use_first_track.1 Behavior.initEngine demoTrack0 [demoTrack1]
    [Persistence.Track.mk 1 Persistence.TrackState.ACTIVE
      Persistence.Category.PERSON
      (some (Persistence.BBox3D.mk 0 0 1000 1 2 1)) ⟨0, 0, 0⟩ none 10 0 []
      (99/100) (1/2) (3/5)] none "OPEN_TRACK"
    (List.Forall₂.cons
      ⟨rfl, rfl, rfl, rfl, rfl, rfl, rfl, rfl, rfl, rfl⟩ List.Forall₂.nil)

/-- C4: association is a deterministic function of its inputs — two
runs on the same detections, tracks and embedding matrices (modelled
by two arbitrary draws of the RNG oracle that feeds the stubbed IoU
matrix) return the same matched dict and unmatched index lists. -/
theorem associate_detections_deterministic {α β : Type}
    (rand₁ rand₂ : ℕ → ℕ → ℝ) (detections : List α) (tracks : List β)
    (features_det features_track : List (List ℝ))
    (iou_threshold reid_threshold : ℝ) :
    Association.associate_detections rand₁ detections tracks features_det
      features_track iou_threshold reid_threshold =
    Association.associate_detections rand₂ detections tracks features_det
      features_track iou_threshold reid_threshold := by
  unfold Association.associate_detections
  simp only [Association.hungarian_matching,
    Association.compute_iou_matrix_rows, Association.compute_iou_matrix_cols]

end StacCaps
